import Mathlib

/-!
Verification of the Roast-Studio round/session state machine.

The definitions below are a shallow embedding of the repository's code:

* `supabase/functions/session-manager/index.ts`   — the Session Lifecycle Controller
* `supabase/functions/complete-live-round/index.ts` — the Round-Completion Service
* the SQL migrations (table shapes, row-level-security policies, the
  `increment_global_round_progress_on_message_used` trigger)
* the client `WatchView` component (playback scheduler, follower audio sync,
  exchange persistence).

Timestamps are modelled as integers (milliseconds), matching the code's use of
`Date.getTime()` arithmetic and ISO-string comparisons.  Identifiers (UUIDs in
the database) are modelled as natural numbers.  The single logical
`global_round_state` row (the code reads the most recently updated row and
updates it in place, inserting one when none exists) is modelled as an
`Option GlobalRow`.
-/

namespace RoastStudio

/-- Session status column: `CHECK (status IN ('OPEN','LOCKED','LIVE','ARCHIVED'))`. -/
inductive SessionStatus : Type
  | OPEN
  | LOCKED
  | LIVE
  | ARCHIVED
deriving DecidableEq

/-- Round phase column: `CHECK (round_state IN ('SUBMITTING','LIVE','WAITING'))`. -/
inductive RoundPhase : Type
  | SUBMITTING
  | LIVE
  | WAITING
deriving DecidableEq

/-- A row of `personas` (only the fields the core logic reads). -/
structure Persona : Type where
  pid : Nat
  username : Nat
deriving DecidableEq

/-- A row of `roast_sessions`. -/
structure Session : Type where
  id : Nat
  persona_name : Nat
  status : SessionStatus
  start_time : Int
  lock_time : Option Int
  created_at : Int
deriving DecidableEq

/-- A row of `roast_messages`. -/
structure Message : Type where
  id : Nat
  session_id : Nat
  used : Bool
  created_at : Int
deriving DecidableEq

/-- A row of `global_round_state` (the fields written by the code). -/
structure GlobalRow : Type where
  session_id : Option Nat
  round_state : RoundPhase
  current_roast_index : Nat
  total_roasts : Nat
  submit_end_time : Option Int
  live_start_time : Option Int
  updated_at : Int
deriving DecidableEq

/-- A row of `roast_exchanges` (the fields relevant to sequence integrity). -/
structure ExchangeRec : Type where
  session_id : Nat
  message_id : Option Nat
  sequence_number : Nat
deriving DecidableEq

/-- The durable store. -/
structure DB : Type where
  sessions : List Session
  messages : List Message
  personas : List Persona
  global : Option GlobalRow
  nextId : Nat
deriving DecidableEq

/-- SQL `lock_time <= t` (a NULL `lock_time` never satisfies the comparison). -/
def lockDue (s : Session) (t : Int) : Bool :=
  match s.lock_time with
  | some lt => decide (lt ≤ t)
  | none => false

/-- `roast_messages` count with `session_id = sid` and `used = false`
(the `total_roasts` computation in both edge functions). -/
def countUnusedMessages (msgs : List Message) (sid : Nat) : Nat :=
  (msgs.filter (fun m => m.session_id == sid && m.used == false)).length

/-- `updateGlobalRoundState` helper shared by both edge functions: overwrites the
single logical `global_round_state` row with the given phase and timestamps,
`current_roast_index := 0`, and `total_roasts` counted from the store.
The database trigger sets `updated_at := now` on every write.
Returns the updated store together with the written row. -/
def updateGlobalRoundState (db : DB) (sessionId : Option Nat) (roundState : RoundPhase)
    (submitEndTime liveStartTime : Option Int) (now : Int) : DB × GlobalRow :=
  let totalRoasts : Nat :=
    match sessionId with
    | some sid => countUnusedMessages db.messages sid
    | none => 0
  let row : GlobalRow :=
    { session_id := sessionId
      round_state := roundState
      current_roast_index := 0
      total_roasts := totalRoasts
      submit_end_time := submitEndTime
      live_start_time := liveStartTime
      updated_at := now }
  ({ db with global := some row }, row)

/-- `UPDATE roast_sessions SET status = st WHERE id = i` on the list of rows. -/
def setStatusInList (l : List Session) (i : Nat) (st : SessionStatus) : List Session :=
  l.map (fun s => if s.id == i then { s with status := st } else s)

/-- `UPDATE roast_sessions SET status = st WHERE id = i`. -/
def setSessionStatus (db : DB) (i : Nat) (st : SessionStatus) : DB :=
  { db with sessions := setStatusInList db.sessions i st }

/-- `SELECT ... FROM roast_sessions WHERE id = i` (`maybeSingle`). -/
def findSession (db : DB) (i : Nat) : Option Session :=
  db.sessions.find? (fun s => s.id == i)

/-- Accumulator for one run of the Session Lifecycle Controller: the evolving
store plus the trace of session-status writes and `global_round_state` writes
the run performs. -/
structure ManagerAcc : Type where
  db : DB
  statusWrites : List (Nat × SessionStatus)
  globalWrites : List GlobalRow
deriving DecidableEq

/-- Loop body of controller step 1: `UPDATE roast_sessions SET status = 'LOCKED'
WHERE id = session.id` for one fetched OPEN session. -/
def lockIteration (a : ManagerAcc) (s : Session) : ManagerAcc :=
  { a with
    db := setSessionStatus a.db s.id .LOCKED
    statusWrites := a.statusWrites ++ [(s.id, SessionStatus.LOCKED)] }

/-- Controller step 1: sessions with `status = 'OPEN'` and `lock_time <= now`
are set to `LOCKED` (one `UPDATE ... WHERE id = ...` per fetched row). -/
def sessionManagerStep1 (acc : ManagerAcc) (now : Int) : ManagerAcc :=
  let openSessions := acc.db.sessions.filter (fun s => s.status == .OPEN && lockDue s now)
  openSessions.foldl lockIteration acc

/-- Loop body of controller step 2: set one fetched LOCKED session LIVE and
upsert the global state for it. -/
def goLiveIteration (now : Int) (a : ManagerAcc) (s : Session) : ManagerAcc :=
  let db1 := setSessionStatus a.db s.id .LIVE
  let ur := updateGlobalRoundState db1 (some s.id) .LIVE s.lock_time (some now) now
  { db := ur.1
    statusWrites := a.statusWrites ++ [(s.id, SessionStatus.LIVE)]
    globalWrites := a.globalWrites ++ [ur.2] }

/-- Controller step 2: sessions with `status = 'LOCKED'` and
`lock_time <= now - 10s` are set to `LIVE`, and for each one the global state is
upserted to phase `LIVE` with `submit_end_time := session.lock_time` and
`live_start_time := now`. -/
def sessionManagerStep2 (acc : ManagerAcc) (now : Int) : ManagerAcc :=
  let lockedSessions :=
    acc.db.sessions.filter (fun s => s.status == .LOCKED && lockDue s (now - 10000))
  lockedSessions.foldl (goLiveIteration now) acc

/-- `SELECT * FROM roast_sessions WHERE status = 'OPEN' ORDER BY created_at DESC LIMIT 1`. -/
def latestOpenSession (db : DB) : Option Session :=
  (db.sessions.filter (fun s => s.status == .OPEN)).foldl
    (fun best s =>
      match best with
      | none => some s
      | some b => if s.created_at > b.created_at then some s else some b)
    none

/-- Controller step 3: if the most recent `OPEN` session is not already reflected
by the global state in phase `SUBMITTING`, upsert the global state to
`SUBMITTING` with `submit_end_time := session.lock_time`, `live_start_time := null`. -/
def sessionManagerStep3 (acc : ManagerAcc) (now : Int) : ManagerAcc :=
  match latestOpenSession acc.db with
  | some s =>
    let needsUpdate :=
      match acc.db.global with
      | none => true
      | some g => !(g.session_id == some s.id) || !(g.round_state == RoundPhase.SUBMITTING)
    if needsUpdate then
      let ur := updateGlobalRoundState acc.db (some s.id) .SUBMITTING s.lock_time none now
      { acc with db := ur.1, globalWrites := acc.globalWrites ++ [ur.2] }
    else acc
  | none => acc

/-- Loop body of controller step 4: archive one fetched LIVE session when it
has zero unused messages and its lock time is more than 5 minutes old, and
reset the global state to WAITING. -/
def archiveIteration (now : Int) (a : ManagerAcc) (s : Session) : ManagerAcc :=
  if countUnusedMessages a.db.messages s.id == 0 then
    match s.lock_time with
    | some lt =>
      if now - lt > 300000 then
        let db1 := setSessionStatus a.db s.id .ARCHIVED
        let ur := updateGlobalRoundState db1 none .WAITING none none now
        { db := ur.1
          statusWrites := a.statusWrites ++ [(s.id, SessionStatus.ARCHIVED)]
          globalWrites := a.globalWrites ++ [ur.2] }
      else a
    | none => a
  else a

/-- Controller step 4: every `LIVE` session with zero unused messages whose
`lock_time` is more than 5 minutes in the past is archived, and the global
state is reset to `WAITING`. -/
def sessionManagerStep4 (acc : ManagerAcc) (now : Int) : ManagerAcc :=
  let liveSessions := acc.db.sessions.filter (fun s => s.status == .LIVE)
  liveSessions.foldl (archiveIteration now) acc

/-- One invocation of the Session Lifecycle Controller
(`supabase/functions/session-manager/index.ts`), run at time `now`. -/
def sessionManager (db : DB) (now : Int) : ManagerAcc :=
  let a1 := sessionManagerStep1 { db := db, statusWrites := [], globalWrites := [] } now
  let a2 := sessionManagerStep2 a1 now
  let a3 := sessionManagerStep3 a2 now
  sessionManagerStep4 a3 now

/-- `status IN ('OPEN','LOCKED','LIVE')`. -/
def isActiveStatus (st : SessionStatus) : Bool :=
  st == .OPEN || st == .LOCKED || st == .LIVE

/-- Result of one Round-Completion invocation: the resulting store, the trace of
`global_round_state` writes, the trace of message-`used` writes (each paired
with the owning session's status at the moment of the write), and the id of the
successor session when one was created. -/
structure CompleteResult : Type where
  db : DB
  globalWrites : List GlobalRow
  usedWrites : List (Nat × Option SessionStatus)
  createdSessionId : Option Nat
deriving DecidableEq

/-- The conditional archive update of Round-Completion, applied to each session
row: `UPDATE roast_sessions SET status = 'ARCHIVED' WHERE id = sessionId AND
status = 'LIVE'`. -/
def archiveMap (sessionId : Nat) (s : Session) : Session :=
  if s.id == sessionId && s.status == SessionStatus.LIVE then { s with status := .ARCHIVED }
  else s

/-- The store after Round-Completion's conditional archive update. -/
def archivedDB (db : DB) (sessionId : Nat) : DB :=
  { db with sessions := db.sessions.map (archiveMap sessionId) }

/-- The safety-net update of Round-Completion, applied to each message row:
`UPDATE roast_messages SET used = true WHERE session_id = sessionId AND
used = false`. -/
def markUsedMap (sessionId : Nat) (m : Message) : Message :=
  if m.session_id == sessionId && m.used == false then { m with used := true } else m

/-- The store after Round-Completion's safety-net message update. -/
def markedDB (db : DB) (sessionId : Nat) : DB :=
  { db with messages := db.messages.map (markUsedMap sessionId) }

/-- The trace of message-`used` flips performed by Round-Completion's safety
net on store `db1` (the store right after the archive update): each flipped
message id, paired with the owning session's status at the moment of the
write. -/
def usedWritesOf (db1 : DB) (sessionId : Nat) : List (Nat × Option SessionStatus) :=
  (db1.messages.filter (fun m => m.session_id == sessionId && m.used == false)).map
    (fun m => (m.id, (findSession db1 sessionId).map (·.status)))

/-- How the Round-Completion reconcile branch derives the global phase from the
surviving active session's status. -/
def reconcilePhase (st : SessionStatus) : RoundPhase :=
  if st == SessionStatus.OPEN then .SUBMITTING
  else if st == SessionStatus.LOCKED || st == SessionStatus.LIVE then .LIVE
  else .WAITING

/-- The body of one Round-Completion invocation after the session lookup
succeeded: archive (conditional), mark remaining messages used, then either
create a successor OPEN session (no active session left; random persona,
2-minute submission window) or reconcile the global state with the surviving
active session. -/
def completeAfterFound (db : DB) (sessionId : Nat) (now : Int) (randPick : Nat) :
    CompleteResult :=
  match ((markedDB (archivedDB db sessionId) sessionId).sessions.filter
      (fun s => isActiveStatus s.status)).head? with
  | none =>
    match (markedDB (archivedDB db sessionId) sessionId).personas with
    | [] =>
      let ur := updateGlobalRoundState (markedDB (archivedDB db sessionId) sessionId)
        none .WAITING none none now
      { db := ur.1
        globalWrites := [ur.2]
        usedWrites := usedWritesOf (archivedDB db sessionId) sessionId
        createdSessionId := none }
    | p :: ps =>
      -- personas[Math.floor(Math.random() * personas.length)]
      let persona := (p :: ps).getD (randPick % (p :: ps).length) p
      let lockT : Int := now + 2 * 60 * 1000
      let newSession : Session :=
        { id := (markedDB (archivedDB db sessionId) sessionId).nextId
          persona_name := persona.username
          status := .OPEN
          start_time := now
          lock_time := some lockT
          created_at := now }
      let db3 : DB :=
        { (markedDB (archivedDB db sessionId) sessionId) with
          sessions := (markedDB (archivedDB db sessionId) sessionId).sessions ++ [newSession]
          nextId := (markedDB (archivedDB db sessionId) sessionId).nextId + 1 }
      let ur := updateGlobalRoundState db3 (some newSession.id) .SUBMITTING (some lockT) none now
      { db := ur.1
        globalWrites := [ur.2]
        usedWrites := usedWritesOf (archivedDB db sessionId) sessionId
        createdSessionId := some newSession.id }
  | some active =>
    match findSession (markedDB (archivedDB db sessionId) sessionId) active.id with
    | none =>
      { db := markedDB (archivedDB db sessionId) sessionId
        globalWrites := []
        usedWrites := usedWritesOf (archivedDB db sessionId) sessionId
        createdSessionId := none }
    | some ad =>
      let ur := updateGlobalRoundState (markedDB (archivedDB db sessionId) sessionId)
        (some active.id) (reconcilePhase ad.status) ad.lock_time
        (if ad.status == SessionStatus.LIVE then some now else none) now
      { db := ur.1
        globalWrites := [ur.2]
        usedWrites := usedWritesOf (archivedDB db sessionId) sessionId
        createdSessionId := none }

/-- One invocation of the Round-Completion Service
(`supabase/functions/complete-live-round/index.ts`) for session `sessionId` at
time `now`; `randPick` resolves the `Math.random()` persona choice.  `none`
models the 404 "Session not found" response. -/
def completeLiveRound (db : DB) (sessionId : Nat) (now : Int) (randPick : Nat) :
    Option CompleteResult :=
  match findSession db sessionId with
  | none => none
  | some _ => some (completeAfterFound db sessionId now randPick)

/-- Row-level-security policy "Anyone can mark messages used in live sessions"
(migration 20260105150410): an anonymous update of a `roast_messages` row is
permitted only when the owning session is `LIVE` (USING and WITH CHECK) and the
written row has `used = true` (WITH CHECK). -/
def markUsedPolicyAllows (db : DB) (m : Message) (newUsed : Bool) : Bool :=
  db.sessions.any (fun s => s.id == m.session_id && s.status == SessionStatus.LIVE)
    && newUsed == true

/-- The client's `markMessageUsed` (`UPDATE roast_messages SET used = true WHERE
id = messageId`), executed with the anonymous key and therefore filtered by the
row-level-security policy: rows the policy rejects are untouched. -/
def clientMarkMessageUsed (db : DB) (messageId : Nat) : DB :=
  { db with
    messages := db.messages.map (fun m =>
      if m.id == messageId && markUsedPolicyAllows db m true then { m with used := true } else m) }

/-- Database trigger `increment_global_round_progress_on_message_used`
(migration 20260105210631): after an `UPDATE OF used` on a `roast_messages` row
with `OLD.used IS DISTINCT FROM NEW.used` and `NEW.used = true`, set
`current_roast_index := LEAST(total_roasts, current_roast_index + 1)` on every
`global_round_state` row with `session_id = NEW.session_id` and
`round_state = 'LIVE'`. -/
def incrementGlobalRoundProgress (oldUsed newUsed : Bool) (sessionId : Nat)
    (rows : List GlobalRow) (now : Int) : List GlobalRow :=
  if oldUsed != newUsed && newUsed == true then
    rows.map (fun g =>
      if g.session_id == some sessionId && g.round_state == RoundPhase.LIVE then
        { g with
          current_roast_index := min g.total_roasts (g.current_roast_index + 1)
          updated_at := now }
      else g)
  else rows

/-- Row-level-security policy "Anyone can insert exchanges"
(migration 20260105052848): `WITH CHECK (true)` — the schema places no
uniqueness constraint on `(session_id, sequence_number)`. -/
def exchangeInsertAllowed (_table : List ExchangeRec) (_e : ExchangeRec) : Bool :=
  true

/-- An `INSERT INTO roast_exchanges`, gated only by the insert policy. -/
def insertExchange (table : List ExchangeRec) (e : ExchangeRec) : List ExchangeRec :=
  if exchangeInsertAllowed table e then table ++ [e] else table

/-! ### The Host's playback scheduler (`WatchView`, client) -/

/-- Host-side scheduler state: the queue length, the wall-clock start of the
run (`liveStartTimeRef`), the set of already-started indices
(`roastProcessedRef`) and the in-flight index (`currentlyProcessingRef`). -/
structure SchedulerState : Type where
  numMessages : Nat
  liveStart : Int
  processed : Finset Nat
  currentlyProcessing : Option Nat
deriving DecidableEq

/-- `startTimestampScheduler` initialisation: cleared processed set, no item in
flight. -/
def initialSchedulerState (n : Nat) (liveStart : Int) : SchedulerState :=
  { numMessages := n, liveStart := liveStart, processed := ∅, currentlyProcessing := none }

/-- `BASE_DELAY_PER_ROAST` (15 seconds, in milliseconds). -/
def baseDelayPerRoast : Int := 15000

/-- The 250ms tick's scan: the first index `i < numMessages` with
`elapsed >= i * BASE_DELAY_PER_ROAST` that is not yet in the processed set
(the `for` loop breaks at the first such index). -/
def dueUnprocessedIndex (st : SchedulerState) (now : Int) : Option Nat :=
  (List.range st.numMessages).find? (fun i =>
    decide (now - st.liveStart ≥ (i : Int) * baseDelayPerRoast)
      && !(decide (i ∈ st.processed)))

/-- The head of `processRoast`: the `currentlyProcessing` guard, then recording
the index as in flight and processed. -/
def processRoastStart (st : SchedulerState) (i : Nat) : SchedulerState :=
  if st.currentlyProcessing ≠ none then st
  else { st with currentlyProcessing := some i, processed := insert i st.processed }

/-- One 250ms scheduler tick at wall-clock time `now`: scan for the first due,
unprocessed index; call `processRoast` on it only when nothing is currently
processing.  Returns the new state and the index started, if any. -/
def schedulerTick (st : SchedulerState) (now : Int) : SchedulerState × Option Nat :=
  match dueUnprocessedIndex st now with
  | some i =>
    if st.currentlyProcessing == none then (processRoastStart st i, some i) else (st, none)
  | none => (st, none)

/-- The tail of `processRoast`: the in-flight marker is cleared after the
exchange is persisted. -/
def processRoastFinish (st : SchedulerState) : SchedulerState :=
  { st with currentlyProcessing := none }

/-- The exchange record `processRoast` persists for queue index `idx`
(`saveExchange(message.id, ..., idx + 1)`). -/
def exchangeForIndex (sessionId : Nat) (msgs : List Message) (idx : Nat) : ExchangeRec :=
  { session_id := sessionId
    message_id := (msgs[idx]?).map (·.id)
    sequence_number := idx + 1 }

/-- A Host run: a sequence of scheduler ticks at the given wall-clock times.
Each started roast runs to completion (cooperative event loop: persisting its
exchange and clearing the in-flight marker) before the next tick fires. -/
def hostRun (sessionId : Nat) (msgs : List Message) (st : SchedulerState)
    (ticks : List Int) (acc : List ExchangeRec) : SchedulerState × List ExchangeRec :=
  ticks.foldl
    (fun p now =>
      let tr := schedulerTick p.1 now
      match tr.2 with
      | some i => (processRoastFinish tr.1, p.2 ++ [exchangeForIndex sessionId msgs i])
      | none => (tr.1, p.2))
    (st, acc)

/-! ### The Follower's audio offset reconstruction (`playFollowerAudio`, client) -/

/-- `playFollowerAudio`: given the snapshot's `audio_started_at` and the local
clock (both in milliseconds) and the clip duration (seconds), compute
`elapsed = (now - startTime) / 1000`; skip the clip entirely when
`elapsed > 30`; otherwise start playback, seeking to `elapsed` exactly when
`0 < elapsed < duration` (the `onloadedmetadata` handler), and from offset 0
otherwise.  Returns `none` for "skipped", `some offset` for "played from
`offset`". -/
def playFollowerAudio (startedAt nowMs : Int) (duration : ℚ) : Option ℚ :=
  let elapsed : ℚ := ((nowMs - startedAt : Int) : ℚ) / 1000
  if elapsed > 30 then none
  else some (if 0 < elapsed ∧ elapsed < duration then elapsed else 0)

/-! ### Specification-side notions used to state the theorems -/

/-- Position of a status in the forward order OPEN, LOCKED, LIVE, ARCHIVED. -/
def statusRank : SessionStatus → Nat
  | .OPEN => 0
  | .LOCKED => 1
  | .LIVE => 2
  | .ARCHIVED => 3

/-- One session row only moved forward: same identity, non-decreasing status
rank, and ARCHIVED is terminal. -/
def SessionForward (s t : Session) : Prop :=
  t.id = s.id ∧ statusRank s.status ≤ statusRank t.status ∧
    (s.status = .ARCHIVED → t.status = .ARCHIVED)

/-- Every session row of `l` is still present (at its position) in `l'` and has
only moved forward. -/
def SessionsForward (l l' : List Session) : Prop :=
  l.length ≤ l'.length ∧
    ∀ (j : Nat) s t, l[j]? = some s → l'[j]? = some t → SessionForward s t

/-- The pure sessions-list effect of a controller loop that conditionally sets
the status of each target row by id (proof-side projection of the folds in the
controller steps). -/
def statusFold (st : SessionStatus) (upd : Session → Bool) (targets base : List Session) :
    List Session :=
  targets.foldl (fun l t => if upd t then setStatusInList l t.id st else l) base

/-- The `global_round_state` payload written by controller step 2 for a
newly-LIVE session. -/
def liveWriteRow (msgs : List Message) (s : Session) (now : Int) : GlobalRow :=
  { session_id := some s.id
    round_state := .LIVE
    current_roast_index := 0
    total_roasts := countUnusedMessages msgs s.id
    submit_end_time := s.lock_time
    live_start_time := some now
    updated_at := now }

/-- The `global_round_state` payload written by controller step 3 (and by
Round-Completion's reconcile branch for an OPEN survivor). -/
def submittingRow (msgs : List Message) (s : Session) (now : Int) : GlobalRow :=
  { session_id := some s.id
    round_state := .SUBMITTING
    current_roast_index := 0
    total_roasts := countUnusedMessages msgs s.id
    submit_end_time := s.lock_time
    live_start_time := none
    updated_at := now }

/-- The `global_round_state` payload written when resetting to WAITING. -/
def waitingRow (now : Int) : GlobalRow :=
  { session_id := none
    round_state := .WAITING
    current_roast_index := 0
    total_roasts := 0
    submit_end_time := none
    live_start_time := none
    updated_at := now }

/-- The `global_round_state` payload written by Round-Completion's reconcile
branch when the surviving active session `a` re-fetches as itself. -/
def reconRow (db : DB) (a : Session) (now : Int) : GlobalRow :=
  (updateGlobalRoundState db (some a.id) (reconcilePhase a.status) a.lock_time
    (if a.status == SessionStatus.LIVE then some now else none) now).2

/-- The guard of controller step 4's loop body, as a single boolean. -/
def archiveDue (msgs : List Message) (now : Int) (s : Session) : Bool :=
  countUnusedMessages msgs s.id == 0 &&
    (match s.lock_time with
     | some lt => decide (now - lt > 300000)
     | none => false)

/-- A concrete store used to witness the forward-only theorem. -/
def dbForWitness : DB :=
  { sessions := [{ id := 0, persona_name := 0, status := .OPEN, start_time := 0,
                   lock_time := some 0, created_at := 0 },
                 { id := 1, persona_name := 1, status := .LIVE, start_time := 0,
                   lock_time := some 0, created_at := 0 }]
    messages := [{ id := 0, session_id := 1, used := false, created_at := 0 }]
    personas := [{ pid := 0, username := 0 }]
    global := none
    nextId := 2 }

/-- A concrete store exercising idempotent Round-Completion: session 0 already
ARCHIVED with all its messages used, session 1 still OPEN. -/
def dbIdem : DB :=
  { sessions := [{ id := 0, persona_name := 0, status := .ARCHIVED, start_time := 0,
                   lock_time := some 100, created_at := 0 },
                 { id := 1, persona_name := 1, status := .OPEN, start_time := 50,
                   lock_time := some 200, created_at := 50 }]
    messages := [{ id := 0, session_id := 0, used := true, created_at := 0 }]
    personas := [{ pid := 0, username := 0 }]
    global := none
    nextId := 2 }

/-- A concrete store on which the Round-Completion reconcile branch derives
phase LIVE from a LOCKED session: session 0 LIVE (being completed), session 1
LOCKED (the racing active session). -/
def dbLockedReconcile : DB :=
  { sessions := [{ id := 0, persona_name := 0, status := .LIVE, start_time := 0,
                   lock_time := some 0, created_at := 0 },
                 { id := 1, persona_name := 1, status := .LOCKED, start_time := 0,
                   lock_time := some 10, created_at := 5 }]
    messages := []
    personas := []
    global := none
    nextId := 2 }

/-- A concrete store with one LIVE session holding one unused message (for the
used-flag counterexample). -/
def dbLiveOneMessage : DB :=
  { sessions := [{ id := 0, persona_name := 0, status := .LIVE, start_time := 0,
                   lock_time := some 0, created_at := 0 }]
    messages := [{ id := 0, session_id := 0, used := false, created_at := 0 }]
    personas := []
    global := none
    nextId := 1 }

/-- A concrete store with one LIVE session about to be completed and two
personas, one of which is the session's own subject (for the subject-choice
counterexample). -/
def dbTwoPersonas : DB :=
  { sessions := [{ id := 0, persona_name := 0, status := .LIVE, start_time := 0,
                   lock_time := some 0, created_at := 0 }]
    messages := []
    personas := [{ pid := 0, username := 0 }, { pid := 1, username := 1 }]
    global := none
    nextId := 1 }

/-! ## Theorems -/

/-- C8: a Follower observing a snapshot with audio-start timestamp `startedAt`
at local time `nowMs`, where the elapsed time is `k` seconds: if `k` exceeds 30
seconds the clip is skipped entirely; otherwise, when `0 < k` and `k` is less
than the clip's duration, playback starts seeked to offset `k`, not offset 0. -/
theorem follower_offset_reconstruction (startedAt nowMs : Int) (duration k : ℚ)
    (hk : k = ((nowMs - startedAt : Int) : ℚ) / 1000) :
    (k > 30 → playFollowerAudio startedAt nowMs duration = none) ∧
    (k ≤ 30 → 0 < k → k < duration → playFollowerAudio startedAt nowMs duration = some k) := by
  subst hk
  unfold playFollowerAudio
  constructor
  · intro h
    simp only [if_pos h]
  · intro h30 h0 hd
    rw [if_neg (not_lt.mpr h30), if_pos ⟨h0, hd⟩]

/-- Witness for C8 at a concrete input: audio started 5 seconds ago, clip lasts
10 seconds, so the Follower seeks to offset 5. -/
theorem follower_offset_reconstruction_witness :
    playFollowerAudio 0 5000 10 = some 5 :=
  (follower_offset_reconstruction 0 5000 10 5 (by norm_num)).2
    (by norm_num) (by norm_num) (by norm_num)

/-- C10: the `increment_global_round_progress_on_message_used` trigger fires
only on a false-to-true transition of a message's `used` flag, leaves every
`global_round_state` row not matching the message's session in phase LIVE
untouched, and on matching rows increments `current_roast_index` clamped by
`total_roasts`, so the bound `current_roast_index ≤ total_roasts` is
preserved. -/
theorem message_used_trigger_progress_bound (oldUsed newUsed : Bool) (sessionId : Nat)
    (rows : List GlobalRow) (now : Int) :
    (¬(oldUsed = false ∧ newUsed = true) →
      incrementGlobalRoundProgress oldUsed newUsed sessionId rows now = rows) ∧
    (∀ (j : Nat) (g g' : GlobalRow), rows[j]? = some g →
      (incrementGlobalRoundProgress oldUsed newUsed sessionId rows now)[j]? = some g' →
      (¬(g.session_id = some sessionId ∧ g.round_state = .LIVE) → g' = g) ∧
      (oldUsed = false → newUsed = true → g.session_id = some sessionId →
        g.round_state = .LIVE →
        g' = { g with
                current_roast_index := min g.total_roasts (g.current_roast_index + 1)
                updated_at := now }) ∧
      (g.current_roast_index ≤ g.total_roasts → g'.current_roast_index ≤ g'.total_roasts)) := by
  constructor
  · intro h
    unfold incrementGlobalRoundProgress
    cases oldUsed <;> cases newUsed <;> simp_all
  · intro j g g' hg hg'
    unfold incrementGlobalRoundProgress at hg'
    by_cases hfire : (oldUsed != newUsed && newUsed == true) = true
    · rw [if_pos hfire, List.getElem?_map, hg] at hg'
      have hol : oldUsed = false ∧ newUsed = true := by
        cases oldUsed <;> cases newUsed <;> simp_all
      by_cases hmatch : (g.session_id == some sessionId && g.round_state == RoundPhase.LIVE) = true
      · rw [Option.map_some', if_pos hmatch] at hg'
        have hm : g.session_id = some sessionId ∧ g.round_state = RoundPhase.LIVE := by
          simpa only [Bool.and_eq_true, beq_iff_eq] using hmatch
        refine ⟨fun hcon => absurd hm hcon, fun _ _ _ _ => ?_, fun hb => ?_⟩
        · injection hg' with h2
          exact h2.symm
        · injection hg' with h2
          subst h2
          simp
      · rw [Option.map_some', if_neg hmatch] at hg'
        injection hg' with h2
        subst h2
        refine ⟨fun _ => rfl, fun ho hn hs hr => ?_, fun hb => hb⟩
        exact absurd (by simp [hs, hr]) hmatch
    · rw [if_neg hfire] at hg'
      have : g' = g := by
        rw [hg] at hg'
        injection hg' with h
        exact h.symm
      subst this
      refine ⟨fun _ => rfl, fun ho hn _ _ => ?_, fun hb => hb⟩
      subst ho; subst hn; simp at hfire

/-- `List.find?` returns the first element satisfying the predicate: the found
element has an index, and every earlier index fails the predicate. -/
theorem find?_first_index {α : Type} (p : α → Bool) (l : List α) (b : α)
    (h : l.find? p = some b) :
    ∃ k : Nat, l[k]? = some b ∧ p b = true ∧
      ∀ (j : Nat), j < k → ∀ a, l[j]? = some a → p a = false := by
  induction l generalizing b with
  | nil => simp [List.find?] at h
  | cons x xs ih =>
    cases hpx : p x with
    | true =>
      rw [List.find?_cons_of_pos _ hpx] at h
      injection h with h
      subst h
      exact ⟨0, by simp, hpx, fun j hj a ha => absurd hj (Nat.not_lt_zero j)⟩
    | false =>
      rw [List.find?_cons_of_neg _ (by simp [hpx])] at h
      obtain ⟨k, hk, hpb, hprev⟩ := ih b h
      refine ⟨k + 1, by simpa using hk, hpb, fun j hj a ha => ?_⟩
      cases j with
      | zero =>
        simp only [List.getElem?_cons_zero] at ha
        injection ha with ha
        subst ha
        exact hpx
      | succ j =>
        simp only [List.getElem?_cons_succ] at ha
        exact hprev j (Nat.lt_of_succ_lt_succ hj) a ha

/-- `schedulerTick` when no index is due. -/
theorem schedulerTick_of_none_due (st : SchedulerState) (now : Int)
    (h : dueUnprocessedIndex st now = none) : schedulerTick st now = (st, none) := by
  unfold schedulerTick
  rw [h]

/-- `schedulerTick` when an index is due but an item is in flight. -/
theorem schedulerTick_of_busy (st : SchedulerState) (now : Int) (i : Nat)
    (h : dueUnprocessedIndex st now = some i) (hc : st.currentlyProcessing ≠ none) :
    schedulerTick st now = (st, none) := by
  unfold schedulerTick
  rw [h]
  show (if (st.currentlyProcessing == none) = true then (processRoastStart st i, some i)
    else (st, none)) = (st, none)
  rw [if_neg (by simpa using hc)]

/-- `schedulerTick` when an index is due and nothing is in flight. -/
theorem schedulerTick_of_free (st : SchedulerState) (now : Int) (i : Nat)
    (h : dueUnprocessedIndex st now = some i) (hc : st.currentlyProcessing = none) :
    schedulerTick st now = (processRoastStart st i, some i) := by
  unfold schedulerTick
  rw [h]
  show (if (st.currentlyProcessing == none) = true then (processRoastStart st i, some i)
    else (st, none)) = (processRoastStart st i, some i)
  rw [if_pos (by simpa using hc)]

/-- What a successful tick scan implies: the found index is due, unprocessed,
in range, and minimal (no smaller index is both due and unprocessed). -/
theorem dueUnprocessedIndex_spec (st : SchedulerState) (now : Int) :
    ∀ i : Nat, dueUnprocessedIndex st now = some i →
      (now - st.liveStart ≥ (i : Int) * baseDelayPerRoast) ∧ i ∉ st.processed ∧
        i < st.numMessages ∧
        ∀ j : Nat, j < i →
          ¬(now - st.liveStart ≥ (j : Int) * baseDelayPerRoast ∧ j ∉ st.processed) := by
  intro i hi
  obtain ⟨k, hk, hpb, hprev⟩ := find?_first_index _ _ _ hi
  have hkn : k < st.numMessages := by
    by_contra hkn
    rw [List.getElem?_eq_none (by simpa [List.length_range] using Nat.le_of_not_lt hkn)] at hk
    exact Option.noConfusion hk
  have hik : i = k := by
    rw [List.getElem?_range hkn] at hk
    injection hk with hk
    exact hk.symm
  subst hik
  simp only [Bool.and_eq_true, decide_eq_true_eq, Bool.not_eq_eq_eq_not, Bool.not_true,
    decide_eq_false_iff_not] at hpb
  refine ⟨hpb.1, hpb.2, hkn, fun j hj hcon => ?_⟩
  have hj' := hprev j hj j (by rw [List.getElem?_range (Nat.lt_trans hj hkn)])
  rw [decide_eq_true hcon.1] at hj'
  rw [decide_eq_false hcon.2] at hj'
  simp at hj'

/-- When the processed set is the prefix `{0, …, k-1}`, the tick scan can only
find index `k`. -/
theorem dueUnprocessedIndex_prefix (st : SchedulerState) (now : Int) (k : Nat)
    (hk : st.processed = Finset.range k) (i : Nat)
    (h : dueUnprocessedIndex st now = some i) : i = k ∧ k < st.numMessages := by
  obtain ⟨hdue0, hnp, hlt, hmin⟩ := dueUnprocessedIndex_spec st now i h
  have hik : i = k := by
    rcases Nat.lt_trichotomy i k with hc | hc | hc
    · exact absurd (by simp [hk]; exact hc) hnp
    · exact hc
    · exfalso
      refine hmin k hc ⟨?_, by simp [hk]⟩
      calc ((k : Int) * baseDelayPerRoast)
          ≤ (i : Int) * baseDelayPerRoast := by
            have hki : (k : Int) ≤ (i : Int) := by exact_mod_cast Nat.le_of_lt hc
            exact mul_le_mul_of_nonneg_right hki (by norm_num [baseDelayPerRoast])
        _ ≤ now - st.liveStart := hdue0
  exact ⟨hik, hik ▸ hlt⟩

/-- C7: within one Host's scheduler, a tick only starts an index when nothing is
in flight and the index was never started before; a tick with an item in flight
does nothing; and when the processed set is the prefix `{0, …, k-1}` a tick
either does nothing or starts exactly index `k`, so items start strictly in
queue order and never in parallel. -/
theorem scheduler_tick_in_order (st : SchedulerState) (now : Int) :
    (∀ i : Nat, (schedulerTick st now).2 = some i →
      st.currentlyProcessing = none ∧ i ∉ st.processed ∧
      (schedulerTick st now).1.currentlyProcessing = some i ∧
      (schedulerTick st now).1.processed = insert i st.processed) ∧
    (st.currentlyProcessing ≠ none → schedulerTick st now = (st, none)) ∧
    (∀ k : Nat, st.processed = Finset.range k →
      schedulerTick st now = (st, none) ∨
      ((schedulerTick st now).2 = some k ∧
        (schedulerTick st now).1.processed = Finset.range (k + 1) ∧
        (schedulerTick st now).1.currentlyProcessing = some k)) := by
  by_cases hcur : st.currentlyProcessing = none
  · -- nothing in flight
    refine ⟨?_, ?_, ?_⟩
    · intro i hi
      cases hd : dueUnprocessedIndex st now with
      | none => rw [schedulerTick_of_none_due st now hd] at hi; exact Option.noConfusion hi
      | some i0 =>
        rw [schedulerTick_of_free st now i0 hd hcur] at hi
        rw [schedulerTick_of_free st now i0 hd hcur]
        injection hi with hi
        subst hi
        obtain ⟨_, hnp, _, _⟩ := dueUnprocessedIndex_spec st now i0 hd
        exact ⟨hcur, hnp, by simp [processRoastStart, hcur], by simp [processRoastStart, hcur]⟩
    · intro hc
      exact absurd hcur hc
    · intro k hk
      cases hd : dueUnprocessedIndex st now with
      | none => exact Or.inl (schedulerTick_of_none_due st now hd)
      | some i0 =>
        obtain ⟨hi0, hlt⟩ := dueUnprocessedIndex_prefix st now k hk i0 hd
        subst hi0
        rw [schedulerTick_of_free st now i0 hd hcur]
        right
        refine ⟨rfl, ?_, ?_⟩
        · simp [processRoastStart, hcur, hk, Finset.range_succ]
        · simp [processRoastStart, hcur]
  · -- an item is in flight: every part gives a no-op
    have hbusy : schedulerTick st now = (st, none) := by
      cases hd : dueUnprocessedIndex st now with
      | none => exact schedulerTick_of_none_due st now hd
      | some i0 => exact schedulerTick_of_busy st now i0 hd hcur
    refine ⟨?_, fun _ => hbusy, fun k hk => Or.inl hbusy⟩
    intro i hi
    rw [hbusy] at hi
    exact Option.noConfusion hi

/-- Witness for C7 at a concrete input: with index 0 in flight, a tick starts
nothing and changes nothing. -/
theorem scheduler_tick_in_order_witness :
    schedulerTick { numMessages := 3, liveStart := 0, processed := {0},
                    currentlyProcessing := some 0 } 20000 =
      ({ numMessages := 3, liveStart := 0, processed := {0},
         currentlyProcessing := some 0 }, none) :=
  (scheduler_tick_in_order _ 20000).2.1 (by simp)

/-- Invariant of a Host run: starting from a prefix-processed state with
nothing in flight, any sequence of ticks leaves the processed set a prefix,
nothing in flight, and appends exactly the exchanges for the newly processed
indices, in queue order. -/
theorem hostRun_invariant (sid : Nat) (msgs : List Message) (ticks : List Int) :
    ∀ (st : SchedulerState) (acc : List ExchangeRec) (m : Nat),
      st.numMessages = msgs.length → st.processed = Finset.range m →
      st.currentlyProcessing = none → m ≤ msgs.length →
      ∃ mf : Nat, m ≤ mf ∧ mf ≤ msgs.length ∧
        (hostRun sid msgs st ticks acc).1.processed = Finset.range mf ∧
        (hostRun sid msgs st ticks acc).1.currentlyProcessing = none ∧
        (hostRun sid msgs st ticks acc).2 =
          acc ++ (List.range' m (mf - m)).map (exchangeForIndex sid msgs) := by
  induction ticks with
  | nil =>
    intro st acc m hnum hpref hcur hm
    exact ⟨m, le_refl m, hm, by simpa [hostRun] using hpref, by simpa [hostRun] using hcur,
      by simp [hostRun]⟩
  | cons t ts ih =>
    intro st acc m hnum hpref hcur hm
    cases hd : dueUnprocessedIndex st t with
    | none =>
      have hstep : hostRun sid msgs st (t :: ts) acc = hostRun sid msgs st ts acc := by
        simp [hostRun, schedulerTick_of_none_due st t hd]
      rw [hstep]
      exact ih st acc m hnum hpref hcur hm
    | some i0 =>
      obtain ⟨hi0, hlt⟩ := dueUnprocessedIndex_prefix st t m hpref i0 hd
      subst hi0
      have hstep : hostRun sid msgs st (t :: ts) acc =
          hostRun sid msgs (processRoastFinish (processRoastStart st i0)) ts
            (acc ++ [exchangeForIndex sid msgs i0]) := by
        simp [hostRun, schedulerTick_of_free st t i0 hd hcur]
      rw [hstep]
      obtain ⟨mf, hmf1, hmf2, hmf3, hmf4, hmf5⟩ :=
        ih (processRoastFinish (processRoastStart st i0)) (acc ++ [exchangeForIndex sid msgs i0])
          (i0 + 1)
          (by simp [processRoastFinish, processRoastStart, hcur, hnum])
          (by simp [processRoastFinish, processRoastStart, hcur, hpref, Finset.range_succ])
          (by simp [processRoastFinish])
          (by omega)
      refine ⟨mf, by omega, hmf2, hmf3, hmf4, ?_⟩
      rw [hmf5, List.append_assoc]
      congr 1
      have hrange : List.range' i0 (mf - i0) =
          i0 :: List.range' (i0 + 1) (mf - (i0 + 1)) := by
        rw [show mf - i0 = (mf - (i0 + 1)) + 1 by omega, List.range'_succ]
      rw [hrange]
      simp

/-- C9 (single-Host part): a Host run started from a cleared scheduler state
processes a prefix of the queue in order and writes exactly one exchange per
processed index with sequence number `index + 1`, so the written sequence
numbers are exactly `1, 2, …, k` — contiguous, strictly increasing, starting at
1, without gaps or duplicates. -/
theorem host_run_sequence_numbers (sid : Nat) (msgs : List Message) (liveStart : Int)
    (ticks : List Int) :
    ∃ k : Nat, k ≤ msgs.length ∧
      (hostRun sid msgs (initialSchedulerState msgs.length liveStart) ticks []).1.processed =
        Finset.range k ∧
      (hostRun sid msgs (initialSchedulerState msgs.length liveStart) ticks []).2 =
        (List.range k).map (exchangeForIndex sid msgs) ∧
      (hostRun sid msgs (initialSchedulerState msgs.length liveStart) ticks []).2.map
        (·.sequence_number) = List.range' 1 k := by
  obtain ⟨mf, _, hmf2, hmf3, _, hmf5⟩ :=
    hostRun_invariant sid msgs ticks (initialSchedulerState msgs.length liveStart) [] 0
      rfl (by simp [initialSchedulerState]) rfl (Nat.zero_le _)
  refine ⟨mf, hmf2, hmf3, ?_, ?_⟩
  · rw [hmf5]
    simp [List.range_eq_range']
  · rw [hmf5]
    simp only [List.nil_append, List.map_map, Nat.sub_zero]
    rw [List.range'_eq_map_range 0 mf, List.map_map]
    rw [List.range'_eq_map_range 1 mf]
    apply List.map_congr_left
    intro a _
    simp [exchangeForIndex, Nat.add_comm]

/-- Witness for C9 at a concrete input: two messages, three ticks; the written
sequence numbers are exactly [1, 2]. -/
theorem host_run_sequence_numbers_witness :
    (hostRun 5 [{ id := 0, session_id := 5, used := false, created_at := 0 },
                { id := 1, session_id := 5, used := false, created_at := 0 }]
        (initialSchedulerState 2 0) [0, 15000, 30000] []).2.map (·.sequence_number) =
      List.range' 1 2 := by
  obtain ⟨k, _, h1, _, h3⟩ := host_run_sequence_numbers 5
    [{ id := 0, session_id := 5, used := false, created_at := 0 },
     { id := 1, session_id := 5, used := false, created_at := 0 }] 0 [0, 15000, 30000]
  have hcard : Finset.range k = Finset.range 2 := by
    rw [← h1]
    decide
  have hk : k = 2 := by simpa using congrArg Finset.card hcard
  rw [hk] at h3
  simpa using h3

/-- C9 counterexample: the store itself does not rule out duplicate sequence
numbers — the `roast_exchanges` insert policy is `WITH CHECK (true)` and the
schema has no uniqueness constraint, so two inserts with the same
`(session_id, sequence_number)` both succeed. -/
theorem duplicate_sequence_number_insertable :
    exchangeInsertAllowed []
        { session_id := 0, message_id := some 0, sequence_number := 1 } = true ∧
    exchangeInsertAllowed [{ session_id := 0, message_id := some 0, sequence_number := 1 }]
        { session_id := 0, message_id := some 3, sequence_number := 1 } = true ∧
    (insertExchange
        (insertExchange [] { session_id := 0, message_id := some 0, sequence_number := 1 })
        { session_id := 0, message_id := some 3, sequence_number := 1 }).map
      (·.sequence_number) = [1, 1] ∧
    ¬ ((insertExchange
        (insertExchange [] { session_id := 0, message_id := some 0, sequence_number := 1 })
        { session_id := 0, message_id := some 3, sequence_number := 1 }).map
      (·.sequence_number)).Nodup := by
  refine ⟨rfl, rfl, rfl, ?_⟩
  decide

/-! ### Controller and Round-Completion machinery -/

/-- Element-wise view of a status update by id. -/
theorem setStatusInList_getElem? (l : List Session) (i : Nat) (st : SessionStatus) (j : Nat) :
    (setStatusInList l i st)[j]? =
      (l[j]?).map (fun s => if s.id == i then { s with status := st } else s) := by
  simp [setStatusInList]

/-- A status update by id does not change the id column. -/
theorem setStatusInList_ids (l : List Session) (i : Nat) (st : SessionStatus) :
    (setStatusInList l i st).map (·.id) = l.map (·.id) := by
  simp only [setStatusInList, List.map_map]
  apply List.map_congr_left
  intro s _
  by_cases h : (s.id == i) = true
  · rw [Function.comp_apply, if_pos h]
  · rw [Function.comp_apply, if_neg h]

/-- With unique ids (the table's primary key), two rows of the list with the
same id are the same row. -/
theorem session_eq_of_id_eq {l : List Session} (hnd : (l.map (·.id)).Nodup)
    {s t : Session} (hs : s ∈ l) (ht : t ∈ l) (hid : s.id = t.id) : s = t := by
  obtain ⟨i, hli⟩ := List.mem_iff_getElem?.mp hs
  obtain ⟨j, hlj⟩ := List.mem_iff_getElem?.mp ht
  have hmi : (l.map (·.id))[i]? = some s.id := by
    rw [List.getElem?_map, hli, Option.map_some']
  have hmj : (l.map (·.id))[j]? = some t.id := by
    rw [List.getElem?_map, hlj, Option.map_some']
  by_cases hij : i = j
  · subst hij
    rw [hli] at hlj
    injection hlj
  · exfalso
    rcases Nat.lt_or_ge i j with h | h
    · have hjlen : j < (l.map (·.id)).length := (List.getElem?_eq_some.mp hmj).1
      exact (List.nodup_iff_getElem?_ne_getElem?.mp hnd i j h hjlen)
        (by rw [hmi, hmj, hid])
    · have hji : j < i := by omega
      have hilen : i < (l.map (·.id)).length := (List.getElem?_eq_some.mp hmi).1
      exact (List.nodup_iff_getElem?_ne_getElem?.mp hnd j i hji hilen)
        (by rw [hmi, hmj, hid])

/-- The ids column is unchanged by a conditional status fold. -/
theorem statusFold_ids (st : SessionStatus) (upd : Session → Bool) :
    ∀ (targets base : List Session),
      (statusFold st upd targets base).map (·.id) = base.map (·.id) := by
  intro targets
  induction targets with
  | nil => intro base; rfl
  | cons t ts ih =>
    intro base
    show (statusFold st upd ts (if upd t then setStatusInList base t.id st else base)).map (·.id)
      = base.map (·.id)
    rw [ih]
    by_cases h : upd t = true <;> simp [h, setStatusInList_ids]

/-- A conditional status fold preserves the length of the list. -/
theorem statusFold_length (st : SessionStatus) (upd : Session → Bool)
    (targets base : List Session) :
    (statusFold st upd targets base).length = base.length := by
  have := congrArg List.length (statusFold_ids st upd targets base)
  simpa using this

/-- Element-wise specification of a conditional status fold over target rows
drawn from the base list (with unique ids): each row is either untouched or has
exactly its status overwritten, and in the latter case the row satisfied the
target property `Q`. -/
theorem statusFold_spec (st : SessionStatus) (upd : Session → Bool) (Q : Session → Prop)
    (base : List Session) (hnd : (base.map (·.id)).Nodup) :
    ∀ (targets l : List Session),
      (∀ t ∈ targets, t ∈ base ∧ Q t) →
      (∀ (j : Nat) (s : Session), base[j]? = some s →
        ∃ s', l[j]? = some s' ∧ (s' = s ∨ (s' = { s with status := st } ∧ Q s))) →
      ∀ (j : Nat) (s : Session), base[j]? = some s →
        ∃ s', (targets.foldl (fun l t => if upd t then setStatusInList l t.id st else l) l)[j]?
            = some s' ∧ (s' = s ∨ (s' = { s with status := st } ∧ Q s)) := by
  intro targets
  induction targets with
  | nil => intro l _ hinv j s hj; exact hinv j s hj
  | cons t ts ih =>
    intro l htg hinv j s hj
    refine ih (if upd t then setStatusInList l t.id st else l)
      (fun x hx => htg x (List.mem_cons_of_mem t hx)) ?_ j s hj
    intro j0 s0 hj0
    obtain ⟨s', hl, hdis⟩ := hinv j0 s0 hj0
    by_cases hupd : upd t = true
    · rw [if_pos hupd]
      have hid : s'.id = s0.id := by
        rcases hdis with h | ⟨h, _⟩ <;> rw [h]
      by_cases hbeq : (s'.id == t.id) = true
      · have hs0t : s0 = t := by
          apply session_eq_of_id_eq hnd
          · exact List.mem_iff_getElem?.mpr ⟨j0, hj0⟩
          · exact (htg t (List.mem_cons_self t ts)).1
          · rw [← hid]; exact eq_of_beq hbeq
        refine ⟨{ s' with status := st }, ?_, Or.inr ⟨?_, ?_⟩⟩
        · rw [setStatusInList_getElem?, hl, Option.map_some', if_pos hbeq]
        · rcases hdis with h | ⟨h, _⟩ <;> rw [h]
        · rw [hs0t]; exact (htg t (List.mem_cons_self t ts)).2
      · refine ⟨s', ?_, hdis⟩
        rw [setStatusInList_getElem?, hl, Option.map_some', if_neg hbeq]
    · rw [if_neg hupd]
      exact ⟨s', hl, hdis⟩

/-- `SessionsForward` is reflexive. -/
theorem SessionsForward_refl (l : List Session) : SessionsForward l l := by
  refine ⟨le_refl _, fun j s t hs ht => ?_⟩
  rw [hs] at ht
  injection ht with ht
  subst ht
  exact ⟨rfl, le_refl _, fun h => h⟩

/-- `SessionsForward` is transitive. -/
theorem SessionsForward_trans {l₁ l₂ l₃ : List Session}
    (h12 : SessionsForward l₁ l₂) (h23 : SessionsForward l₂ l₃) :
    SessionsForward l₁ l₃ := by
  refine ⟨le_trans h12.1 h23.1, fun j s t hs ht => ?_⟩
  have hj : j < l₂.length := by
    have hj1 : j < l₁.length := (List.getElem?_eq_some.mp hs).1
    have hlen := h12.1
    omega
  have hm : l₂[j]? = some l₂[j] := List.getElem?_eq_getElem hj
  have f12 := h12.2 j s l₂[j] hs hm
  have f23 := h23.2 j l₂[j] t hm ht
  exact ⟨by rw [f23.1, f12.1], le_trans f12.2.1 f23.2.1, fun h => f23.2.2 (f12.2.2 h)⟩

/-- A conditional status fold moves every row only forward, when every target
satisfies a property `Q` forcing a forward move. -/
theorem statusFold_forward (st : SessionStatus) (upd : Session → Bool) (Q : Session → Prop)
    (targets base : List Session) (hnd : (base.map (·.id)).Nodup)
    (htg : ∀ t ∈ targets, t ∈ base ∧ Q t)
    (hQ : ∀ s, Q s → statusRank s.status ≤ statusRank st ∧ s.status ≠ .ARCHIVED) :
    SessionsForward base (statusFold st upd targets base) := by
  refine ⟨le_of_eq (statusFold_length st upd targets base).symm, fun j s t hs ht => ?_⟩
  obtain ⟨s', hl, hdis⟩ := statusFold_spec st upd Q base hnd targets base htg
    (fun j0 s0 h0 => ⟨s0, h0, Or.inl rfl⟩) j s hs
  have hl2 : (statusFold st upd targets base)[j]? = some s' := hl
  rw [hl2] at ht
  injection ht with ht
  subst ht
  rcases hdis with h | ⟨h, hq⟩
  · subst h
    exact ⟨rfl, le_refl _, fun h => h⟩
  · subst h
    exact ⟨rfl, (hQ s hq).1, fun h => absurd h (hQ s hq).2⟩

/-- Unfolding one step of the conditional status fold. -/
theorem statusFold_cons (st : SessionStatus) (upd : Session → Bool) (t : Session)
    (ts base : List Session) :
    statusFold st upd (t :: ts) base =
      statusFold st upd ts (if upd t then setStatusInList base t.id st else base) := rfl

/-- What a run of controller step 1's loop does, for any target list. -/
theorem step1_fold_proj : ∀ (targets : List Session) (a : ManagerAcc),
    targets.foldl lockIteration a =
      { db := { a.db with sessions := statusFold .LOCKED (fun _ => true) targets a.db.sessions }
        statusWrites := a.statusWrites ++ targets.map (fun s => (s.id, SessionStatus.LOCKED))
        globalWrites := a.globalWrites } := by
  intro targets
  induction targets with
  | nil => intro a; simp [statusFold]
  | cons t ts ih =>
    intro a
    rw [List.foldl_cons, ih, statusFold_cons]
    simp [lockIteration, setSessionStatus]

/-- What a run of controller step 2's loop does, for any target list. -/
theorem step2_fold_proj (now : Int) : ∀ (targets : List Session) (a : ManagerAcc),
    (targets.foldl (goLiveIteration now) a).db.sessions =
        statusFold .LIVE (fun _ => true) targets a.db.sessions ∧
    (targets.foldl (goLiveIteration now) a).db.messages = a.db.messages ∧
    (targets.foldl (goLiveIteration now) a).db.personas = a.db.personas ∧
    (targets.foldl (goLiveIteration now) a).db.nextId = a.db.nextId ∧
    (targets.foldl (goLiveIteration now) a).statusWrites =
        a.statusWrites ++ targets.map (fun s => (s.id, SessionStatus.LIVE)) ∧
    (targets.foldl (goLiveIteration now) a).globalWrites =
        a.globalWrites ++ targets.map (fun s => liveWriteRow a.db.messages s now) := by
  intro targets
  induction targets with
  | nil => intro a; simp [statusFold]
  | cons t ts ih =>
    intro a
    rw [List.foldl_cons]
    obtain ⟨h1, h2, h3, h4, h5, h6⟩ := ih (goLiveIteration now a t)
    refine ⟨?_, ?_, ?_, ?_, ?_, ?_⟩
    · rw [h1]; rfl
    · rw [h2]; rfl
    · rw [h3]; rfl
    · rw [h4]; rfl
    · rw [h5]
      show (a.statusWrites ++ [(t.id, SessionStatus.LIVE)]) ++
          ts.map (fun s => (s.id, SessionStatus.LIVE)) = _
      simp
    · rw [h6]
      show (a.globalWrites ++ [liveWriteRow a.db.messages t now]) ++
          ts.map (fun s => liveWriteRow (goLiveIteration now a t).db.messages s now) = _
      have hmsg : (goLiveIteration now a t).db.messages = a.db.messages := rfl
      rw [hmsg]
      simp

/-- What controller step 3 does: sessions, messages and status writes are
untouched, and at most one `SUBMITTING` row for the latest OPEN session is
appended to the global-write trace. -/
theorem step3_proj (acc : ManagerAcc) (now : Int) :
    (sessionManagerStep3 acc now).db.sessions = acc.db.sessions ∧
    (sessionManagerStep3 acc now).db.messages = acc.db.messages ∧
    (sessionManagerStep3 acc now).statusWrites = acc.statusWrites ∧
    (∃ tailg, (sessionManagerStep3 acc now).globalWrites = acc.globalWrites ++ tailg) ∧
    ∀ row ∈ (sessionManagerStep3 acc now).globalWrites,
      row ∈ acc.globalWrites ∨
      ∃ s, latestOpenSession acc.db = some s ∧ s.status = .OPEN ∧ s ∈ acc.db.sessions ∧
        row = submittingRow acc.db.messages s now := by
  cases hl : latestOpenSession acc.db with
  | none =>
    have heq : sessionManagerStep3 acc now = acc := by
      unfold sessionManagerStep3
      rw [hl]
    rw [heq]
    exact ⟨rfl, rfl, rfl, ⟨[], by simp⟩, fun row hr => Or.inl hr⟩
  | some s =>
    have hmem : s ∈ acc.db.sessions ∧ s.status = .OPEN := by
      have haux : ∀ (l : List Session) (b : Option Session),
          l.foldl (fun best s =>
            match best with
            | none => some s
            | some b => if s.created_at > b.created_at then some s else some b) b = some s →
          b = some s ∨ s ∈ l := by
        intro l
        induction l with
        | nil => intro b hb; exact Or.inl hb
        | cons x xs ihx =>
          intro b hb
          rw [List.foldl_cons] at hb
          rcases ihx _ hb with hh | hh
          · cases b with
            | none =>
              simp only at hh
              injection hh with hh
              exact Or.inr (by rw [← hh]; exact List.mem_cons_self x xs)
            | some c =>
              simp only at hh
              by_cases hgt : x.created_at > c.created_at
              · rw [if_pos hgt] at hh
                injection hh with hh
                exact Or.inr (by rw [← hh]; exact List.mem_cons_self x xs)
              · rw [if_neg hgt] at hh
                exact Or.inl hh
          · exact Or.inr (List.mem_cons_of_mem x hh)
      have := haux (acc.db.sessions.filter (fun s => s.status == .OPEN)) none hl
      rcases this with hcon | hmem
      · exact Option.noConfusion hcon
      · have := List.mem_filter.mp hmem
        exact ⟨this.1, by simpa using this.2⟩
    have heq : sessionManagerStep3 acc now =
        (if (match acc.db.global with
            | none => true
            | some g =>
              !(g.session_id == some s.id) || !(g.round_state == RoundPhase.SUBMITTING)) = true
         then
          { acc with
            db := { acc.db with global := some (submittingRow acc.db.messages s now) }
            globalWrites := acc.globalWrites ++ [submittingRow acc.db.messages s now] }
         else acc) := by
      unfold sessionManagerStep3
      rw [hl]
      rfl
    rw [heq]
    by_cases hneed : (match acc.db.global with
      | none => true
      | some g =>
        !(g.session_id == some s.id) || !(g.round_state == RoundPhase.SUBMITTING)) = true
    · rw [if_pos hneed]
      refine ⟨rfl, rfl, rfl, ⟨[submittingRow acc.db.messages s now], rfl⟩, fun row hr => ?_⟩
      rcases List.mem_append.mp hr with hr | hr
      · exact Or.inl hr
      · rcases List.mem_singleton.mp hr with hrow
        exact Or.inr ⟨s, rfl, hmem.2, hmem.1, hrow⟩
    · rw [if_neg hneed]
      exact ⟨rfl, rfl, rfl, ⟨[], by simp⟩, fun row hr => Or.inl hr⟩

/-- The step-4 loop body, expressed through its guard `archiveDue`. -/
theorem archiveIteration_eq (now : Int) (a : ManagerAcc) (s : Session) :
    archiveIteration now a s =
      if archiveDue a.db.messages now s then
        { db := { a.db with
            sessions := setStatusInList a.db.sessions s.id .ARCHIVED
            global := some (waitingRow now) }
          statusWrites := a.statusWrites ++ [(s.id, SessionStatus.ARCHIVED)]
          globalWrites := a.globalWrites ++ [waitingRow now] }
      else a := by
  unfold archiveIteration archiveDue
  cases hlock : s.lock_time with
  | none => simp
  | some lt =>
    by_cases hc : (countUnusedMessages a.db.messages s.id == 0) = true
    · by_cases hdl : now - lt > 300000
      · simp [hc, hdl, updateGlobalRoundState, setSessionStatus, waitingRow]
      · simp [hc, hdl]
    · simp [hc]

/-- What a run of controller step 4's loop does, for any target list. -/
theorem step4_fold_proj (now : Int) : ∀ (targets : List Session) (a : ManagerAcc),
    (targets.foldl (archiveIteration now) a).db.sessions =
        statusFold .ARCHIVED (archiveDue a.db.messages now) targets a.db.sessions ∧
    (targets.foldl (archiveIteration now) a).db.messages = a.db.messages ∧
    (∃ tail, (targets.foldl (archiveIteration now) a).statusWrites =
        a.statusWrites ++ tail) ∧
    (∃ tailg, (targets.foldl (archiveIteration now) a).globalWrites =
        a.globalWrites ++ tailg) ∧
    (∀ row ∈ (targets.foldl (archiveIteration now) a).globalWrites,
        row ∈ a.globalWrites ∨ row = waitingRow now) := by
  intro targets
  induction targets with
  | nil =>
    intro a
    exact ⟨rfl, rfl, ⟨[], by simp⟩, ⟨[], by simp⟩, fun row hr => Or.inl hr⟩
  | cons t ts ih =>
    intro a
    rw [List.foldl_cons]
    obtain ⟨h1, h2, ⟨tail, h3⟩, ⟨tailg, h3g⟩, h4⟩ := ih (archiveIteration now a t)
    have hstep := archiveIteration_eq now a t
    by_cases hdue : archiveDue a.db.messages now t = true
    · rw [if_pos hdue] at hstep
      have hmsg : (archiveIteration now a t).db.messages = a.db.messages := by rw [hstep]
      rw [hmsg] at h1 h2
      refine ⟨?_, h2, ?_, ?_, ?_⟩
      · rw [h1, statusFold_cons, if_pos hdue, hstep]
      · refine ⟨(t.id, SessionStatus.ARCHIVED) :: tail, ?_⟩
        rw [h3, hstep]
        show (a.statusWrites ++ [(t.id, SessionStatus.ARCHIVED)]) ++ tail = _
        simp
      · refine ⟨waitingRow now :: tailg, ?_⟩
        rw [h3g, hstep]
        show (a.globalWrites ++ [waitingRow now]) ++ tailg = _
        simp
      · intro row hr
        rcases h4 row hr with hrr | hrr
        · rw [hstep] at hrr
          rcases List.mem_append.mp hrr with h | h
          · exact Or.inl h
          · exact Or.inr (List.mem_singleton.mp h)
        · exact Or.inr hrr
    · rw [if_neg hdue] at hstep
      rw [hstep] at h1 h2 h3 h3g h4 ⊢
      refine ⟨?_, h2, ⟨tail, h3⟩, ⟨tailg, h3g⟩, h4⟩
      rw [h1, statusFold_cons, if_neg hdue]

/-- Round-Completion when the session id is unknown (the 404 branch). -/
theorem completeLiveRound_of_not_found (db : DB) (sessionId : Nat) (now : Int) (randPick : Nat)
    (h : findSession db sessionId = none) :
    completeLiveRound db sessionId now randPick = none := by
  unfold completeLiveRound
  rw [h]

/-- Round-Completion when the session is found. -/
theorem completeLiveRound_of_found (db : DB) (sessionId : Nat) (now : Int) (randPick : Nat)
    (s0 : Session) (h : findSession db sessionId = some s0) :
    completeLiveRound db sessionId now randPick =
      some (completeAfterFound db sessionId now randPick) := by
  unfold completeLiveRound
  rw [h]

/-- The Round-Completion branch with no surviving active session and no
personas. -/
theorem completeAfterFound_waiting (db : DB) (sessionId : Nat) (now : Int) (randPick : Nat)
    (hhead : ((markedDB (archivedDB db sessionId) sessionId).sessions.filter
        (fun s => isActiveStatus s.status)).head? = none)
    (hper : (markedDB (archivedDB db sessionId) sessionId).personas = []) :
    completeAfterFound db sessionId now randPick =
      { db := { markedDB (archivedDB db sessionId) sessionId with global := some (waitingRow now) }
        globalWrites := [waitingRow now]
        usedWrites := usedWritesOf (archivedDB db sessionId) sessionId
        createdSessionId := none } := by
  unfold completeAfterFound
  rw [hhead, hper]
  rfl

/-- The Round-Completion branch that creates the successor OPEN session. -/
theorem completeAfterFound_create (db : DB) (sessionId : Nat) (now : Int) (randPick : Nat)
    (p : Persona) (ps : List Persona)
    (hhead : ((markedDB (archivedDB db sessionId) sessionId).sessions.filter
        (fun s => isActiveStatus s.status)).head? = none)
    (hper : (markedDB (archivedDB db sessionId) sessionId).personas = p :: ps) :
    completeAfterFound db sessionId now randPick =
      (let persona := (p :: ps).getD (randPick % (p :: ps).length) p
       let newSession : Session :=
         { id := (markedDB (archivedDB db sessionId) sessionId).nextId
           persona_name := persona.username
           status := .OPEN
           start_time := now
           lock_time := some (now + 2 * 60 * 1000)
           created_at := now }
       let db3 : DB :=
         { markedDB (archivedDB db sessionId) sessionId with
           sessions := (markedDB (archivedDB db sessionId) sessionId).sessions ++ [newSession]
           nextId := (markedDB (archivedDB db sessionId) sessionId).nextId + 1 }
       { db := (updateGlobalRoundState db3 (some newSession.id) .SUBMITTING
           (some (now + 2 * 60 * 1000)) none now).1
         globalWrites := [(updateGlobalRoundState db3 (some newSession.id) .SUBMITTING
           (some (now + 2 * 60 * 1000)) none now).2]
         usedWrites := usedWritesOf (archivedDB db sessionId) sessionId
         createdSessionId := some newSession.id }) := by
  unfold completeAfterFound
  rw [hhead, hper]

/-- The Round-Completion reconcile branch (a surviving active session whose row
re-fetch succeeds). -/
theorem completeAfterFound_reconcile (db : DB) (sessionId : Nat) (now : Int) (randPick : Nat)
    (active ad : Session)
    (hhead : ((markedDB (archivedDB db sessionId) sessionId).sessions.filter
        (fun s => isActiveStatus s.status)).head? = some active)
    (hfind : findSession (markedDB (archivedDB db sessionId) sessionId) active.id = some ad) :
    completeAfterFound db sessionId now randPick =
      { db := (updateGlobalRoundState (markedDB (archivedDB db sessionId) sessionId)
          (some active.id) (reconcilePhase ad.status) ad.lock_time
          (if ad.status == SessionStatus.LIVE then some now else none) now).1
        globalWrites := [(updateGlobalRoundState (markedDB (archivedDB db sessionId) sessionId)
          (some active.id) (reconcilePhase ad.status) ad.lock_time
          (if ad.status == SessionStatus.LIVE then some now else none) now).2]
        usedWrites := usedWritesOf (archivedDB db sessionId) sessionId
        createdSessionId := none } := by
  unfold completeAfterFound
  rw [hhead]
  simp only [hfind]

/-- The Round-Completion reconcile branch when the active row's re-fetch comes
back empty. -/
theorem completeAfterFound_reconcile_missing (db : DB) (sessionId : Nat) (now : Int)
    (randPick : Nat) (active : Session)
    (hhead : ((markedDB (archivedDB db sessionId) sessionId).sessions.filter
        (fun s => isActiveStatus s.status)).head? = some active)
    (hfind : findSession (markedDB (archivedDB db sessionId) sessionId) active.id = none) :
    completeAfterFound db sessionId now randPick =
      { db := markedDB (archivedDB db sessionId) sessionId
        globalWrites := []
        usedWrites := usedWritesOf (archivedDB db sessionId) sessionId
        createdSessionId := none } := by
  unfold completeAfterFound
  rw [hhead]
  simp only [hfind]

/-- The conditional archive update only moves a session forward. -/
theorem SessionsForward_map_archive (sessionId : Nat) (l : List Session) :
    SessionsForward l (l.map (archiveMap sessionId)) := by
  refine ⟨le_of_eq (List.length_map l _).symm, fun j s t hs ht => ?_⟩
  rw [List.getElem?_map, hs, Option.map_some'] at ht
  injection ht with ht
  subst ht
  unfold archiveMap
  by_cases hc : (s.id == sessionId && s.status == SessionStatus.LIVE) = true
  · rw [if_pos hc]
    have hlive : s.status = SessionStatus.LIVE := by
      have := (Bool.and_eq_true _ _).mp hc
      exact eq_of_beq this.2
    refine ⟨rfl, ?_, ?_⟩
    · rw [hlive]; exact Nat.le_succ 2
    · intro harch
      rw [harch] at hlive
  · rw [if_neg hc]
    exact ⟨rfl, le_refl _, fun h => h⟩

/-- Appending new rows keeps every existing row in place. -/
theorem SessionsForward_append (l t : List Session) : SessionsForward l (l ++ t) := by
  refine ⟨by simp, fun j s u hs hu => ?_⟩
  have hj : j < l.length := (List.getElem?_eq_some.mp hs).1
  rw [List.getElem?_append_left hj, hs] at hu
  injection hu with hu
  subst hu
  exact ⟨rfl, le_refl _, fun h => h⟩

/-- C1: session status is forward-only.  With unique session ids (the table's
primary key), one run of the Session Lifecycle Controller and one invocation of
the Round-Completion Service move every session row's status only forward along
OPEN, LOCKED, LIVE, ARCHIVED, and ARCHIVED is terminal. -/
theorem session_status_forward_only (db : DB) (now : Int) (sessionId randPick : Nat)
    (hnd : (db.sessions.map (·.id)).Nodup) :
    SessionsForward db.sessions (sessionManager db now).db.sessions ∧
    ∀ res, completeLiveRound db sessionId now randPick = some res →
      SessionsForward db.sessions res.db.sessions := by
  constructor
  · -- the Session Lifecycle Controller
    have hs1 : (sessionManagerStep1 ⟨db, [], []⟩ now).db.sessions =
        statusFold .LOCKED (fun _ => true)
          (db.sessions.filter (fun s => s.status == .OPEN && lockDue s now)) db.sessions :=
      congrArg (fun m => m.db.sessions) (step1_fold_proj _ _)
    have f1 : SessionsForward db.sessions (sessionManagerStep1 ⟨db, [], []⟩ now).db.sessions := by
      rw [hs1]
      refine statusFold_forward _ _ (fun t => (t.status == .OPEN && lockDue t now) = true)
        _ _ hnd (fun t ht => ⟨(List.mem_filter.mp ht).1, (List.mem_filter.mp ht).2⟩) ?_
      intro s hq
      have hopen : s.status = SessionStatus.OPEN := eq_of_beq ((Bool.and_eq_true _ _).mp hq).1
      rw [hopen]
      exact ⟨Nat.le_succ 0, fun h => SessionStatus.noConfusion h⟩
    have hids1 : ((sessionManagerStep1 ⟨db, [], []⟩ now).db.sessions.map (·.id)) =
        db.sessions.map (·.id) := by
      rw [hs1]
      exact statusFold_ids _ _ _ _
    have hnd1 : (((sessionManagerStep1 ⟨db, [], []⟩ now).db.sessions.map (·.id))).Nodup := by
      rw [hids1]; exact hnd
    have hs2 : (sessionManagerStep2 (sessionManagerStep1 ⟨db, [], []⟩ now) now).db.sessions =
        statusFold .LIVE (fun _ => true)
          ((sessionManagerStep1 ⟨db, [], []⟩ now).db.sessions.filter
            (fun s => s.status == .LOCKED && lockDue s (now - 10000)))
          (sessionManagerStep1 ⟨db, [], []⟩ now).db.sessions :=
      (step2_fold_proj now _ _).1
    have f2 : SessionsForward (sessionManagerStep1 ⟨db, [], []⟩ now).db.sessions
        (sessionManagerStep2 (sessionManagerStep1 ⟨db, [], []⟩ now) now).db.sessions := by
      rw [hs2]
      refine statusFold_forward _ _
        (fun t => (t.status == .LOCKED && lockDue t (now - 10000)) = true)
        _ _ hnd1 (fun t ht => ⟨(List.mem_filter.mp ht).1, (List.mem_filter.mp ht).2⟩) ?_
      intro s hq
      have hlocked : s.status = SessionStatus.LOCKED := eq_of_beq ((Bool.and_eq_true _ _).mp hq).1
      rw [hlocked]
      exact ⟨Nat.le_succ 1, fun h => SessionStatus.noConfusion h⟩
    have hids2 : ((sessionManagerStep2 (sessionManagerStep1 ⟨db, [], []⟩ now) now).db.sessions.map
        (·.id)) = db.sessions.map (·.id) := by
      rw [hs2, statusFold_ids, hids1]
    have hs3 : (sessionManagerStep3
        (sessionManagerStep2 (sessionManagerStep1 ⟨db, [], []⟩ now) now) now).db.sessions =
        (sessionManagerStep2 (sessionManagerStep1 ⟨db, [], []⟩ now) now).db.sessions :=
      (step3_proj _ now).1
    have hnd3 : ((sessionManagerStep3
        (sessionManagerStep2 (sessionManagerStep1 ⟨db, [], []⟩ now) now) now).db.sessions.map
          (·.id)).Nodup := by
      rw [hs3, hids2]; exact hnd
    have hs4 : (sessionManagerStep4 (sessionManagerStep3
        (sessionManagerStep2 (sessionManagerStep1 ⟨db, [], []⟩ now) now) now) now).db.sessions =
        statusFold .ARCHIVED
          (archiveDue (sessionManagerStep3
            (sessionManagerStep2 (sessionManagerStep1 ⟨db, [], []⟩ now) now) now).db.messages now)
          ((sessionManagerStep3
            (sessionManagerStep2 (sessionManagerStep1 ⟨db, [], []⟩ now) now) now).db.sessions.filter
              (fun s => s.status == .LIVE))
          (sessionManagerStep3
            (sessionManagerStep2 (sessionManagerStep1 ⟨db, [], []⟩ now) now) now).db.sessions :=
      (step4_fold_proj now _ _).1
    have f4 : SessionsForward
        (sessionManagerStep3
          (sessionManagerStep2 (sessionManagerStep1 ⟨db, [], []⟩ now) now) now).db.sessions
        (sessionManagerStep4 (sessionManagerStep3
          (sessionManagerStep2 (sessionManagerStep1 ⟨db, [], []⟩ now) now) now) now).db.sessions := by
      rw [hs4]
      refine statusFold_forward _ _ (fun t => (t.status == SessionStatus.LIVE) = true)
        _ _ hnd3 (fun t ht => ⟨(List.mem_filter.mp ht).1, (List.mem_filter.mp ht).2⟩) ?_
      intro s hq
      have hlive : s.status = SessionStatus.LIVE := eq_of_beq hq
      rw [hlive]
      exact ⟨Nat.le_succ 2, fun h => SessionStatus.noConfusion h⟩
    have fman : SessionsForward db.sessions
        (sessionManagerStep4 (sessionManagerStep3
          (sessionManagerStep2 (sessionManagerStep1 ⟨db, [], []⟩ now) now) now) now).db.sessions := by
      refine SessionsForward_trans (SessionsForward_trans f1 f2) ?_
      rw [hs3] at f4
      exact f4
    exact fman
  · -- the Round-Completion Service
    intro res hres
    cases hf : findSession db sessionId with
    | none =>
      rw [completeLiveRound_of_not_found db sessionId now randPick hf] at hres
      exact Option.noConfusion hres
    | some s0 =>
      rw [completeLiveRound_of_found db sessionId now randPick s0 hf] at hres
      injection hres with hres
      subst hres
      have base : SessionsForward db.sessions
          (markedDB (archivedDB db sessionId) sessionId).sessions := by
        have heq : (markedDB (archivedDB db sessionId) sessionId).sessions =
            db.sessions.map (archiveMap sessionId) := rfl
        rw [heq]
        exact SessionsForward_map_archive sessionId db.sessions
      cases hhead : ((markedDB (archivedDB db sessionId) sessionId).sessions.filter
          (fun s => isActiveStatus s.status)).head? with
      | none =>
        cases hper : (markedDB (archivedDB db sessionId) sessionId).personas with
        | nil =>
          rw [completeAfterFound_waiting db sessionId now randPick hhead hper]
          exact base
        | cons p ps =>
          rw [completeAfterFound_create db sessionId now randPick p ps hhead hper]
          exact SessionsForward_trans base (SessionsForward_append _ _)
      | some active =>
        cases hfind : findSession (markedDB (archivedDB db sessionId) sessionId) active.id with
        | none =>
          rw [completeAfterFound_reconcile_missing db sessionId now randPick active hhead hfind]
          exact base
        | some ad =>
          rw [completeAfterFound_reconcile db sessionId now randPick active ad hhead hfind]
          exact base

/-- Witness for C1 at a concrete input: one controller run and one
Round-Completion call on a two-session store move statuses only forward. -/
theorem session_status_forward_only_witness :
    SessionsForward dbForWitness.sessions (sessionManager dbForWitness 20000).db.sessions ∧
    ∀ res, completeLiveRound dbForWitness 1 20000 0 = some res →
      SessionsForward dbForWitness.sessions res.db.sessions :=
  session_status_forward_only dbForWitness 20000 1 0 (by decide)

/-- One controller run is the four steps in sequence. -/
theorem sessionManager_decomp (db : DB) (now : Int) :
    sessionManager db now =
      sessionManagerStep4 (sessionManagerStep3 (sessionManagerStep2
        (sessionManagerStep1 ⟨db, [], []⟩ now) now) now) now := rfl

/-- C4: in one controller run at time `now`, every LOCKED session whose lock
time is more than 10 seconds in the past has its status written to LIVE and a
`global_round_state` row upserted with phase LIVE, live-start `now` and
submission-deadline equal to that session's lock time; a LOCKED session locked
less than 10 seconds ago is left LOCKED (its row is unchanged). -/
theorem locked_sessions_go_live (db : DB) (now : Int) (j : Nat) (s : Session) (lt : Int)
    (hnd : (db.sessions.map (·.id)).Nodup)
    (hj : db.sessions[j]? = some s)
    (hst : s.status = SessionStatus.LOCKED)
    (hlock : s.lock_time = some lt) :
    (lt < now - 10000 →
      (s.id, SessionStatus.LIVE) ∈ (sessionManager db now).statusWrites ∧
      ∃ row ∈ (sessionManager db now).globalWrites,
        row.session_id = some s.id ∧ row.round_state = RoundPhase.LIVE ∧
        row.live_start_time = some now ∧ row.submit_end_time = some lt) ∧
    (now - 10000 < lt → (sessionManager db now).db.sessions[j]? = some s) := by
  rw [sessionManager_decomp]
  have hs1 : (sessionManagerStep1 ⟨db, [], []⟩ now).db.sessions =
      statusFold .LOCKED (fun _ => true)
        (db.sessions.filter (fun t => t.status == .OPEN && lockDue t now)) db.sessions :=
    congrArg (fun m => m.db.sessions) (step1_fold_proj _ _)
  have hQ1 : ¬((s.status == SessionStatus.OPEN && lockDue s now) = true) := by
    simp [hst]
  have hpos1 : (sessionManagerStep1 ⟨db, [], []⟩ now).db.sessions[j]? = some s := by
    rw [hs1]
    obtain ⟨s', hl, hdis⟩ := statusFold_spec .LOCKED (fun _ => true)
      (fun t => (t.status == SessionStatus.OPEN && lockDue t now) = true) db.sessions hnd
      (db.sessions.filter (fun t => t.status == .OPEN && lockDue t now)) db.sessions
      (fun t ht => ⟨(List.mem_filter.mp ht).1, (List.mem_filter.mp ht).2⟩)
      (fun j0 s0 h0 => ⟨s0, h0, Or.inl rfl⟩) j s hj
    rcases hdis with h | ⟨_, hq⟩
    · subst h; exact hl
    · exact absurd hq hQ1
  have hids1 : ((sessionManagerStep1 ⟨db, [], []⟩ now).db.sessions.map (·.id)) =
      db.sessions.map (·.id) := by
    rw [hs1]; exact statusFold_ids _ _ _ _
  have hnd1 : (((sessionManagerStep1 ⟨db, [], []⟩ now).db.sessions.map (·.id))).Nodup := by
    rw [hids1]; exact hnd
  have hmem1 : s ∈ (sessionManagerStep1 ⟨db, [], []⟩ now).db.sessions :=
    List.mem_iff_getElem?.mpr ⟨j, hpos1⟩
  constructor
  · -- the session is due: status write LIVE and the LIVE global write appear
    intro hdue
    have hlockdue : lockDue s (now - 10000) = true := by
      unfold lockDue
      rw [hlock]
      exact decide_eq_true (le_of_lt hdue)
    have hsT2 : s ∈ (sessionManagerStep1 ⟨db, [], []⟩ now).db.sessions.filter
        (fun t => t.status == SessionStatus.LOCKED && lockDue t (now - 10000)) :=
      List.mem_filter.mpr ⟨hmem1, by rw [hst]; simp [hlockdue]⟩
    have hsw2 : (sessionManagerStep2 (sessionManagerStep1 ⟨db, [], []⟩ now) now).statusWrites =
        (sessionManagerStep1 ⟨db, [], []⟩ now).statusWrites ++
          ((sessionManagerStep1 ⟨db, [], []⟩ now).db.sessions.filter
            (fun t => t.status == SessionStatus.LOCKED && lockDue t (now - 10000))).map
              (fun t => (t.id, SessionStatus.LIVE)) :=
      (step2_fold_proj now _ _).2.2.2.2.1
    have hgw2 : (sessionManagerStep2 (sessionManagerStep1 ⟨db, [], []⟩ now) now).globalWrites =
        (sessionManagerStep1 ⟨db, [], []⟩ now).globalWrites ++
          ((sessionManagerStep1 ⟨db, [], []⟩ now).db.sessions.filter
            (fun t => t.status == SessionStatus.LOCKED && lockDue t (now - 10000))).map
              (fun t => liveWriteRow (sessionManagerStep1 ⟨db, [], []⟩ now).db.messages t now) :=
      (step2_fold_proj now _ _).2.2.2.2.2
    have hmemsw2 : (s.id, SessionStatus.LIVE) ∈
        (sessionManagerStep2 (sessionManagerStep1 ⟨db, [], []⟩ now) now).statusWrites := by
      rw [hsw2]
      exact List.mem_append_right _ (List.mem_map.mpr ⟨s, hsT2, rfl⟩)
    have hmemgw2 : liveWriteRow (sessionManagerStep1 ⟨db, [], []⟩ now).db.messages s now ∈
        (sessionManagerStep2 (sessionManagerStep1 ⟨db, [], []⟩ now) now).globalWrites := by
      rw [hgw2]
      exact List.mem_append_right _ (List.mem_map.mpr ⟨s, hsT2, rfl⟩)
    obtain ⟨_, _, hsw3, ⟨tg3, hgw3⟩, _⟩ :=
      step3_proj (sessionManagerStep2 (sessionManagerStep1 ⟨db, [], []⟩ now) now) now
    obtain ⟨_, _, ⟨t4, hsw4⟩, ⟨tg4, hgw4⟩, _⟩ :=
      step4_fold_proj now
        ((sessionManagerStep3 (sessionManagerStep2
          (sessionManagerStep1 ⟨db, [], []⟩ now) now) now).db.sessions.filter
            (fun t => t.status == .LIVE))
        (sessionManagerStep3 (sessionManagerStep2 (sessionManagerStep1 ⟨db, [], []⟩ now) now) now)
    have hsw4' : (sessionManagerStep4 (sessionManagerStep3 (sessionManagerStep2
        (sessionManagerStep1 ⟨db, [], []⟩ now) now) now) now).statusWrites =
        (sessionManagerStep3 (sessionManagerStep2
          (sessionManagerStep1 ⟨db, [], []⟩ now) now) now).statusWrites ++ t4 := hsw4
    have hgw4' : (sessionManagerStep4 (sessionManagerStep3 (sessionManagerStep2
        (sessionManagerStep1 ⟨db, [], []⟩ now) now) now) now).globalWrites =
        (sessionManagerStep3 (sessionManagerStep2
          (sessionManagerStep1 ⟨db, [], []⟩ now) now) now).globalWrites ++ tg4 := hgw4
    constructor
    · rw [hsw4', hsw3]
      exact List.mem_append_left _ hmemsw2
    · refine ⟨liveWriteRow (sessionManagerStep1 ⟨db, [], []⟩ now).db.messages s now, ?_, rfl,
        rfl, rfl, ?_⟩
      · rw [hgw4', hgw3]
        exact List.mem_append_left _ (List.mem_append_left _ hmemgw2)
      · show s.lock_time = some lt
        exact hlock
  · -- the session is not due: its row is untouched by all four steps
    intro hnotdue
    have hlockdue : lockDue s (now - 10000) = false := by
      unfold lockDue
      rw [hlock]
      exact decide_eq_false (not_le.mpr hnotdue)
    have hQ2 : ¬((s.status == SessionStatus.LOCKED && lockDue s (now - 10000)) = true) := by
      simp [hlockdue]
    have hs2 : (sessionManagerStep2 (sessionManagerStep1 ⟨db, [], []⟩ now) now).db.sessions =
        statusFold .LIVE (fun _ => true)
          ((sessionManagerStep1 ⟨db, [], []⟩ now).db.sessions.filter
            (fun t => t.status == .LOCKED && lockDue t (now - 10000)))
          (sessionManagerStep1 ⟨db, [], []⟩ now).db.sessions :=
      (step2_fold_proj now _ _).1
    have hpos2 : (sessionManagerStep2 (sessionManagerStep1 ⟨db, [], []⟩ now) now).db.sessions[j]?
        = some s := by
      rw [hs2]
      obtain ⟨s', hl, hdis⟩ := statusFold_spec .LIVE (fun _ => true)
        (fun t => (t.status == SessionStatus.LOCKED && lockDue t (now - 10000)) = true)
        (sessionManagerStep1 ⟨db, [], []⟩ now).db.sessions hnd1
        ((sessionManagerStep1 ⟨db, [], []⟩ now).db.sessions.filter
          (fun t => t.status == .LOCKED && lockDue t (now - 10000)))
        (sessionManagerStep1 ⟨db, [], []⟩ now).db.sessions
        (fun t ht => ⟨(List.mem_filter.mp ht).1, (List.mem_filter.mp ht).2⟩)
        (fun j0 s0 h0 => ⟨s0, h0, Or.inl rfl⟩) j s hpos1
      rcases hdis with h | ⟨_, hq⟩
      · subst h; exact hl
      · exact absurd hq hQ2
    have hids2 : ((sessionManagerStep2 (sessionManagerStep1 ⟨db, [], []⟩ now) now).db.sessions.map
        (·.id)) = db.sessions.map (·.id) := by
      rw [hs2, statusFold_ids, hids1]
    have hs3 : (sessionManagerStep3 (sessionManagerStep2
        (sessionManagerStep1 ⟨db, [], []⟩ now) now) now).db.sessions =
        (sessionManagerStep2 (sessionManagerStep1 ⟨db, [], []⟩ now) now).db.sessions :=
      (step3_proj _ now).1
    have hpos3 : (sessionManagerStep3 (sessionManagerStep2
        (sessionManagerStep1 ⟨db, [], []⟩ now) now) now).db.sessions[j]? = some s := by
      rw [hs3]; exact hpos2
    have hnd3 : ((sessionManagerStep3 (sessionManagerStep2
        (sessionManagerStep1 ⟨db, [], []⟩ now) now) now).db.sessions.map (·.id)).Nodup := by
      rw [hs3, hids2]; exact hnd
    have hQ4 : ¬((s.status == SessionStatus.LIVE) = true) := by simp [hst]
    have hs4 : (sessionManagerStep4 (sessionManagerStep3 (sessionManagerStep2
        (sessionManagerStep1 ⟨db, [], []⟩ now) now) now) now).db.sessions =
        statusFold .ARCHIVED
          (archiveDue (sessionManagerStep3 (sessionManagerStep2
            (sessionManagerStep1 ⟨db, [], []⟩ now) now) now).db.messages now)
          ((sessionManagerStep3 (sessionManagerStep2
            (sessionManagerStep1 ⟨db, [], []⟩ now) now) now).db.sessions.filter
              (fun t => t.status == .LIVE))
          (sessionManagerStep3 (sessionManagerStep2
            (sessionManagerStep1 ⟨db, [], []⟩ now) now) now).db.sessions :=
      (step4_fold_proj now _ _).1
    rw [hs4]
    obtain ⟨s', hl, hdis⟩ := statusFold_spec .ARCHIVED
      (archiveDue (sessionManagerStep3 (sessionManagerStep2
        (sessionManagerStep1 ⟨db, [], []⟩ now) now) now).db.messages now)
      (fun t => (t.status == SessionStatus.LIVE) = true)
      (sessionManagerStep3 (sessionManagerStep2
        (sessionManagerStep1 ⟨db, [], []⟩ now) now) now).db.sessions hnd3
      ((sessionManagerStep3 (sessionManagerStep2
        (sessionManagerStep1 ⟨db, [], []⟩ now) now) now).db.sessions.filter
          (fun t => t.status == .LIVE))
      (sessionManagerStep3 (sessionManagerStep2
        (sessionManagerStep1 ⟨db, [], []⟩ now) now) now).db.sessions
      (fun t ht => ⟨(List.mem_filter.mp ht).1, (List.mem_filter.mp ht).2⟩)
      (fun j0 s0 h0 => ⟨s0, h0, Or.inl rfl⟩) j s hpos3
    rcases hdis with h | ⟨_, hq⟩
    · subst h; exact hl
    · exact absurd hq hQ4

/-- Witness for C4 at a concrete input: a session locked 20 seconds ago goes
LIVE with the right global write; a session locked 5 seconds ago stays
LOCKED. -/
theorem locked_sessions_go_live_witness :
    ((0, SessionStatus.LIVE) ∈
      (sessionManager
        { sessions := [{ id := 0, persona_name := 0, status := .LOCKED, start_time := 0,
                         lock_time := some 0, created_at := 0 }]
          messages := [], personas := [], global := none, nextId := 1 } 20000).statusWrites) ∧
    ((sessionManager
        { sessions := [{ id := 0, persona_name := 0, status := .LOCKED, start_time := 0,
                         lock_time := some 16000, created_at := 0 }]
          messages := [], personas := [], global := none, nextId := 1 } 20000).db.sessions[0]? =
      some { id := 0, persona_name := 0, status := .LOCKED, start_time := 0,
             lock_time := some 16000, created_at := 0 }) := by
  constructor
  · exact ((locked_sessions_go_live
      { sessions := [{ id := 0, persona_name := 0, status := .LOCKED, start_time := 0,
                       lock_time := some 0, created_at := 0 }]
        messages := [], personas := [], global := none, nextId := 1 } 20000 0
      { id := 0, persona_name := 0, status := .LOCKED, start_time := 0,
        lock_time := some 0, created_at := 0 } 0
      (by decide) rfl rfl rfl).1 (by decide)).1
  · exact (locked_sessions_go_live
      { sessions := [{ id := 0, persona_name := 0, status := .LOCKED, start_time := 0,
                       lock_time := some 16000, created_at := 0 }]
        messages := [], personas := [], global := none, nextId := 1 } 20000 0
      { id := 0, persona_name := 0, status := .LOCKED, start_time := 0,
        lock_time := some 16000, created_at := 0 } 16000
      (by decide) rfl rfl rfl).2 (by decide)

/-- A conditional status fold does not change any row's lock time. -/
theorem statusFold_lock_time (st : SessionStatus) (upd : Session → Bool) (Q : Session → Prop)
    (targets base : List Session) (hnd : (base.map (·.id)).Nodup)
    (htg : ∀ t ∈ targets, t ∈ base ∧ Q t) :
    ∀ x ∈ statusFold st upd targets base, ∃ s0 ∈ base, x.lock_time = s0.lock_time := by
  intro x hx
  obtain ⟨j, hj⟩ := List.mem_iff_getElem?.mp hx
  have hjlen : j < base.length := by
    have h1 : j < (statusFold st upd targets base).length := (List.getElem?_eq_some.mp hj).1
    rwa [statusFold_length] at h1
  have hbase : base[j]? = some base[j] := List.getElem?_eq_getElem hjlen
  obtain ⟨s', hl, hdis⟩ := statusFold_spec st upd Q base hnd targets base htg
    (fun j0 s0 h0 => ⟨s0, h0, Or.inl rfl⟩) j base[j] hbase
  have hl2 : (statusFold st upd targets base)[j]? = some s' := hl
  rw [hj] at hl2
  injection hl2 with hl2
  subst hl2
  refine ⟨base[j], List.getElem_mem hjlen, ?_⟩
  rcases hdis with h | ⟨h, _⟩ <;> rw [h]

/-- The conditional archive update does not change any row's id or lock time. -/
theorem archiveMap_mem (sessionId : Nat) (l : List Session) :
    ∀ x ∈ l.map (archiveMap sessionId),
      ∃ s0 ∈ l, x.lock_time = s0.lock_time ∧ x.id = s0.id := by
  intro x hx
  obtain ⟨s0, hs0, hmap⟩ := List.mem_map.mp hx
  refine ⟨s0, hs0, ?_⟩
  subst hmap
  unfold archiveMap
  by_cases hc : (s0.id == sessionId && s0.status == SessionStatus.LIVE) = true
  · rw [if_pos hc]; exact ⟨rfl, rfl⟩
  · rw [if_neg hc]; exact ⟨rfl, rfl⟩

/-- C3 (amended): every `global_round_state` write performed by the controller
or by Round-Completion satisfies: phase SUBMITTING implies a non-null
submission deadline (given that every session row carries a lock time, as all
code-created sessions do), and phase LIVE implies a non-null live-start —
except for the Round-Completion reconcile branch when the surviving active
session is LOCKED, which writes phase LIVE with a null live-start. -/
theorem global_write_phase_field_invariant (db : DB) (now : Int) (sessionId randPick : Nat)
    (hnd : (db.sessions.map (·.id)).Nodup)
    (hlockall : ∀ s ∈ db.sessions, s.lock_time ≠ none) :
    (∀ row ∈ (sessionManager db now).globalWrites,
      (row.round_state = RoundPhase.SUBMITTING → row.submit_end_time ≠ none) ∧
      (row.round_state = RoundPhase.LIVE → row.live_start_time ≠ none)) ∧
    (∀ res, completeLiveRound db sessionId now randPick = some res →
      ∀ row ∈ res.globalWrites,
        (row.round_state = RoundPhase.SUBMITTING → row.submit_end_time ≠ none) ∧
        (row.round_state = RoundPhase.LIVE →
          row.live_start_time ≠ none ∨
          ∃ a ∈ res.db.sessions, row.session_id = some a.id ∧
            a.status = SessionStatus.LOCKED)) := by
  constructor
  · -- the Session Lifecycle Controller
    rw [sessionManager_decomp]
    intro row hrow
    -- step-by-step trace decomposition
    have hgw1 : (sessionManagerStep1 ⟨db, [], []⟩ now).globalWrites = [] :=
      congrArg (fun m => m.globalWrites) (step1_fold_proj _ _)
    have hs1 : (sessionManagerStep1 ⟨db, [], []⟩ now).db.sessions =
        statusFold .LOCKED (fun _ => true)
          (db.sessions.filter (fun t => t.status == .OPEN && lockDue t now)) db.sessions :=
      congrArg (fun m => m.db.sessions) (step1_fold_proj _ _)
    have hids1 : ((sessionManagerStep1 ⟨db, [], []⟩ now).db.sessions.map (·.id)) =
        db.sessions.map (·.id) := by
      rw [hs1]; exact statusFold_ids _ _ _ _
    have hnd1 : (((sessionManagerStep1 ⟨db, [], []⟩ now).db.sessions.map (·.id))).Nodup := by
      rw [hids1]; exact hnd
    have hlock1 : ∀ s ∈ (sessionManagerStep1 ⟨db, [], []⟩ now).db.sessions,
        s.lock_time ≠ none := by
      intro x hx
      rw [hs1] at hx
      obtain ⟨s0, hs0, heq⟩ := statusFold_lock_time .LOCKED (fun _ => true)
        (fun t => (t.status == SessionStatus.OPEN && lockDue t now) = true) _ db.sessions hnd
        (fun t ht => ⟨(List.mem_filter.mp ht).1, (List.mem_filter.mp ht).2⟩) x hx
      rw [heq]
      exact hlockall s0 hs0
    have hs2 : (sessionManagerStep2 (sessionManagerStep1 ⟨db, [], []⟩ now) now).db.sessions =
        statusFold .LIVE (fun _ => true)
          ((sessionManagerStep1 ⟨db, [], []⟩ now).db.sessions.filter
            (fun t => t.status == .LOCKED && lockDue t (now - 10000)))
          (sessionManagerStep1 ⟨db, [], []⟩ now).db.sessions :=
      (step2_fold_proj now _ _).1
    have hlock2 : ∀ s ∈ (sessionManagerStep2
        (sessionManagerStep1 ⟨db, [], []⟩ now) now).db.sessions, s.lock_time ≠ none := by
      intro x hx
      rw [hs2] at hx
      obtain ⟨s0, hs0, heq⟩ := statusFold_lock_time .LIVE (fun _ => true)
        (fun t => (t.status == SessionStatus.LOCKED && lockDue t (now - 10000)) = true) _
        (sessionManagerStep1 ⟨db, [], []⟩ now).db.sessions hnd1
        (fun t ht => ⟨(List.mem_filter.mp ht).1, (List.mem_filter.mp ht).2⟩) x hx
      rw [heq]
      exact hlock1 s0 hs0
    have hgw2 : (sessionManagerStep2 (sessionManagerStep1 ⟨db, [], []⟩ now) now).globalWrites =
        (sessionManagerStep1 ⟨db, [], []⟩ now).globalWrites ++
          ((sessionManagerStep1 ⟨db, [], []⟩ now).db.sessions.filter
            (fun t => t.status == SessionStatus.LOCKED && lockDue t (now - 10000))).map
              (fun t => liveWriteRow (sessionManagerStep1 ⟨db, [], []⟩ now).db.messages t now) :=
      (step2_fold_proj now _ _).2.2.2.2.2
    obtain ⟨hsss3, _, _, _, hrows3⟩ :=
      step3_proj (sessionManagerStep2 (sessionManagerStep1 ⟨db, [], []⟩ now) now) now
    obtain ⟨_, _, _, _, hrows4⟩ :=
      step4_fold_proj now
        ((sessionManagerStep3 (sessionManagerStep2
          (sessionManagerStep1 ⟨db, [], []⟩ now) now) now).db.sessions.filter
            (fun t => t.status == .LIVE))
        (sessionManagerStep3 (sessionManagerStep2 (sessionManagerStep1 ⟨db, [], []⟩ now) now) now)
    have hrow4 : row ∈ (sessionManagerStep3 (sessionManagerStep2
        (sessionManagerStep1 ⟨db, [], []⟩ now) now) now).globalWrites ∨
        row = waitingRow now := hrows4 row hrow
    rcases hrow4 with hrow3 | hwait
    · rcases hrows3 row hrow3 with hrow2 | ⟨sopen, _, _, hso_mem, hsubm⟩
      · -- a step-2 LIVE write
        rw [hgw2, hgw1, List.nil_append] at hrow2
        obtain ⟨t, _, hrow_eq⟩ := List.mem_map.mp hrow2
        subst hrow_eq
        constructor
        · intro hsub
          exact absurd hsub (by simp [liveWriteRow])
        · intro _
          simp [liveWriteRow]
      · -- a step-3 SUBMITTING write
        subst hsubm
        constructor
        · intro _
          show sopen.lock_time ≠ none
          exact hlock2 sopen hso_mem
        · intro hlive
          exact absurd hlive (by simp [submittingRow])
    · -- a step-4 WAITING write
      subst hwait
      constructor
      · intro hsub
        exact absurd hsub (by simp [waitingRow])
      · intro hlive
        exact absurd hlive (by simp [waitingRow])
  · -- Round-Completion
    intro res hres
    cases hf : findSession db sessionId with
    | none =>
      rw [completeLiveRound_of_not_found db sessionId now randPick hf] at hres
      exact Option.noConfusion hres
    | some s0 =>
      rw [completeLiveRound_of_found db sessionId now randPick s0 hf] at hres
      injection hres with hres
      subst hres
      cases hhead : ((markedDB (archivedDB db sessionId) sessionId).sessions.filter
          (fun s => isActiveStatus s.status)).head? with
      | none =>
        cases hper : (markedDB (archivedDB db sessionId) sessionId).personas with
        | nil =>
          rw [completeAfterFound_waiting db sessionId now randPick hhead hper]
          intro row hrow
          rcases List.mem_singleton.mp hrow with hwr
          subst hwr
          exact ⟨fun h => absurd h (by simp [waitingRow]),
            fun h => absurd h (by simp [waitingRow])⟩
        | cons p ps =>
          rw [completeAfterFound_create db sessionId now randPick p ps hhead hper]
          intro row hrow
          rcases List.mem_singleton.mp hrow with hwr
          subst hwr
          constructor
          · intro _
            show some (now + 2 * 60 * 1000) ≠ none
            simp
          · intro hlive
            exact absurd hlive (by simp [updateGlobalRoundState])
      | some active =>
        cases hfind : findSession (markedDB (archivedDB db sessionId) sessionId) active.id with
        | none =>
          rw [completeAfterFound_reconcile_missing db sessionId now randPick active hhead hfind]
          intro row hrow
          exact absurd hrow (List.not_mem_nil row)
        | some ad =>
          rw [completeAfterFound_reconcile db sessionId now randPick active ad hhead hfind]
          intro row hrow
          rcases List.mem_singleton.mp hrow with hwr
          subst hwr
          have had_mem : ad ∈ (markedDB (archivedDB db sessionId) sessionId).sessions :=
            List.mem_of_find?_eq_some hfind
          have had_id : ad.id = active.id := by
            have := List.find?_some hfind
            exact eq_of_beq this
          cases hst : ad.status with
          | OPEN =>
            constructor
            · intro _
              show ad.lock_time ≠ none
              obtain ⟨sorig, hsorig, hlockeq, _⟩ := archiveMap_mem sessionId db.sessions ad had_mem
              rw [hlockeq]
              exact hlockall sorig hsorig
            · intro hlive
              simp [updateGlobalRoundState, reconcilePhase] at hlive
          | LOCKED =>
            constructor
            · intro hsub
              simp [updateGlobalRoundState, reconcilePhase] at hsub
            · intro _
              right
              refine ⟨ad, had_mem, ?_, hst⟩
              show some active.id = some ad.id
              rw [had_id]
          | LIVE =>
            constructor
            · intro hsub
              simp [updateGlobalRoundState, reconcilePhase] at hsub
            · intro _
              left
              show (some now : Option Int) ≠ none
              simp
          | ARCHIVED =>
            constructor
            · intro hsub
              simp [updateGlobalRoundState, reconcilePhase] at hsub
            · intro hlive
              simp [updateGlobalRoundState, reconcilePhase] at hlive

/-- Counterexample for C3 as stated: on a store with a LIVE session 0 and a
LOCKED session 1, Round-Completion of session 0 reconciles against the LOCKED
survivor and writes a `global_round_state` row with phase LIVE and a NULL
live-start timestamp. -/
theorem reconcile_writes_live_phase_with_null_live_start :
    (completeLiveRound dbLockedReconcile 0 1000 0).map
        (fun r => r.globalWrites.map (fun row => (row.round_state, row.live_start_time))) =
      some [(RoundPhase.LIVE, none)] := by
  rfl

/-- Witness for C3 at a concrete input with unique ids and non-null lock
times. -/
theorem global_write_phase_field_invariant_witness :
    (dbForWitness.sessions.map (·.id)).Nodup ∧
    ∀ row ∈ (sessionManager dbForWitness 20000).globalWrites,
      (row.round_state = RoundPhase.SUBMITTING → row.submit_end_time ≠ none) ∧
      (row.round_state = RoundPhase.LIVE → row.live_start_time ≠ none) :=
  ⟨by decide,
    (global_write_phase_field_invariant dbForWitness 20000 0 0 (by decide) (by decide)).1⟩

/-- C5 (amended): the `used` flag never regresses — the controller never
touches messages, Round-Completion's only message write sets `used := true`
(via the RLS-bypassing service role, after archiving the session), and the
client-path write, filtered by the row-level-security policy, can flip a
message only to `used = true` and only while the owning session is LIVE. -/
theorem used_flag_monotone (db : DB) (sessionId messageId : Nat) (now : Int) (randPick : Nat) :
    ((sessionManager db now).db.messages = db.messages) ∧
    (∀ res, completeLiveRound db sessionId now randPick = some res →
      res.db.messages = db.messages.map (markUsedMap sessionId) ∧
      ∀ (j : Nat) (m m' : Message), db.messages[j]? = some m →
        res.db.messages[j]? = some m' →
        m'.id = m.id ∧ m'.session_id = m.session_id ∧ (m.used = true → m'.used = true)) ∧
    (∀ (j : Nat) (m m' : Message), db.messages[j]? = some m →
      (clientMarkMessageUsed db messageId).messages[j]? = some m' →
      m'.id = m.id ∧ (m.used = true → m'.used = true) ∧
      (m' ≠ m → m'.used = true ∧ ∃ s ∈ db.sessions, s.id = m.session_id ∧
        s.status = SessionStatus.LIVE)) := by
  refine ⟨?_, ?_, ?_⟩
  · -- the controller never writes messages
    rw [sessionManager_decomp]
    have h1 : (sessionManagerStep1 ⟨db, [], []⟩ now).db.messages = db.messages :=
      congrArg (fun m => m.db.messages) (step1_fold_proj _ _)
    have h2 : (sessionManagerStep2 (sessionManagerStep1 ⟨db, [], []⟩ now) now).db.messages =
        (sessionManagerStep1 ⟨db, [], []⟩ now).db.messages :=
      (step2_fold_proj now _ _).2.1
    have h3 := (step3_proj (sessionManagerStep2
      (sessionManagerStep1 ⟨db, [], []⟩ now) now) now).2.1
    have h4 := (step4_fold_proj now
      ((sessionManagerStep3 (sessionManagerStep2
        (sessionManagerStep1 ⟨db, [], []⟩ now) now) now).db.sessions.filter
          (fun t => t.status == .LIVE))
      (sessionManagerStep3 (sessionManagerStep2
        (sessionManagerStep1 ⟨db, [], []⟩ now) now) now)).2.1
    have h4' : (sessionManagerStep4 (sessionManagerStep3 (sessionManagerStep2
        (sessionManagerStep1 ⟨db, [], []⟩ now) now) now) now).db.messages =
        (sessionManagerStep3 (sessionManagerStep2
          (sessionManagerStep1 ⟨db, [], []⟩ now) now) now).db.messages := h4
    rw [h4', h3, h2, h1]
  · -- Round-Completion: one map, setting used := true only
    intro res hres
    have hmsg : res.db.messages = db.messages.map (markUsedMap sessionId) := by
      cases hf : findSession db sessionId with
      | none =>
        rw [completeLiveRound_of_not_found db sessionId now randPick hf] at hres
        exact Option.noConfusion hres
      | some s0 =>
        rw [completeLiveRound_of_found db sessionId now randPick s0 hf] at hres
        injection hres with hres
        subst hres
        cases hhead : ((markedDB (archivedDB db sessionId) sessionId).sessions.filter
            (fun s => isActiveStatus s.status)).head? with
        | none =>
          cases hper : (markedDB (archivedDB db sessionId) sessionId).personas with
          | nil =>
            rw [completeAfterFound_waiting db sessionId now randPick hhead hper]
            rfl
          | cons p ps =>
            rw [completeAfterFound_create db sessionId now randPick p ps hhead hper]
            rfl
        | some active =>
          cases hfind : findSession (markedDB (archivedDB db sessionId) sessionId) active.id with
          | none =>
            rw [completeAfterFound_reconcile_missing db sessionId now randPick active hhead hfind]
            rfl
          | some ad =>
            rw [completeAfterFound_reconcile db sessionId now randPick active ad hhead hfind]
            rfl
    refine ⟨hmsg, fun j m m' hm hm' => ?_⟩
    rw [hmsg, List.getElem?_map, hm, Option.map_some'] at hm'
    injection hm' with hm'
    subst hm'
    unfold markUsedMap
    by_cases hc : (m.session_id == sessionId && m.used == false) = true
    · rw [if_pos hc]
      refine ⟨rfl, rfl, fun hused => ?_⟩
      rfl
    · rw [if_neg hc]
      exact ⟨rfl, rfl, fun h => h⟩
  · -- the client-path write, through the RLS policy
    intro j m m' hm hm'
    have hmm : (clientMarkMessageUsed db messageId).messages[j]? =
        (db.messages[j]?).map (fun m =>
          if m.id == messageId && markUsedPolicyAllows db m true then { m with used := true }
          else m) := by
      unfold clientMarkMessageUsed
      simp [List.getElem?_map]
    rw [hmm, hm, Option.map_some'] at hm'
    injection hm' with hm'
    subst hm'
    by_cases hc : (m.id == messageId && markUsedPolicyAllows db m true) = true
    · rw [if_pos hc]
      refine ⟨rfl, fun _ => rfl, fun _ => ⟨rfl, ?_⟩⟩
      have hpol : markUsedPolicyAllows db m true = true := ((Bool.and_eq_true _ _).mp hc).2
      unfold markUsedPolicyAllows at hpol
      have hany : db.sessions.any (fun s =>
          s.id == m.session_id && s.status == SessionStatus.LIVE) = true :=
        ((Bool.and_eq_true _ _).mp hpol).1
      obtain ⟨s, hsmem, hsp⟩ := List.any_eq_true.mp hany
      exact ⟨s, hsmem, eq_of_beq ((Bool.and_eq_true _ _).mp hsp).1,
        eq_of_beq ((Bool.and_eq_true _ _).mp hsp).2⟩
    · rw [if_neg hc]
      exact ⟨rfl, fun h => h, fun h => absurd rfl h⟩

/-- Witness for C5: the controller leaves the message table untouched on a
concrete store. -/
theorem used_flag_monotone_witness :
    (sessionManager dbLiveOneMessage 1000).db.messages = dbLiveOneMessage.messages :=
  (used_flag_monotone dbLiveOneMessage 0 0 1000 0).1

/-- Counterexample for C5 as stated: on a store with one LIVE session holding
one unused message, Round-Completion archives the session first and only then
flips the message's `used` flag — so the flip happens while the owning
session's status is ARCHIVED, not LIVE. -/
theorem complete_marks_used_while_archived :
    (completeLiveRound dbLiveOneMessage 0 1000 0).map
        (fun r => (r.usedWrites, r.db.messages.map (fun m => m.used))) =
      some ([(0, some SessionStatus.ARCHIVED)], [true]) ∧
    some SessionStatus.ARCHIVED ≠ some SessionStatus.LIVE := by
  constructor
  · rfl
  · simp

/-- On a store whose target session is already ARCHIVED, with all its messages
used and a surviving active session `a` at the head of the active filter,
Round-Completion is a pure reconcile: sessions and messages are untouched, no
message-`used` write happens, no successor is created, and only the single
logical global row is overwritten with the row derived from `a`. -/
theorem complete_on_archived_reconciles (db : DB) (sessionId : Nat) (now : Int) (r : Nat)
    (s0 a : Session)
    (hnd : (db.sessions.map (·.id)).Nodup)
    (hfind : findSession db sessionId = some s0)
    (harch : s0.status = SessionStatus.ARCHIVED)
    (hused : ∀ m ∈ db.messages, m.session_id = sessionId → m.used = true)
    (hhead : (db.sessions.filter (fun s => isActiveStatus s.status)).head? = some a) :
    completeLiveRound db sessionId now r =
      some { db := { db with global := some (reconRow db a now) }
             globalWrites := [reconRow db a now]
             usedWrites := []
             createdSessionId := none } := by
  have hs0mem : s0 ∈ db.sessions := List.mem_of_find?_eq_some hfind
  have hfind0 : db.sessions.find? (fun s => s.id == sessionId) = some s0 := hfind
  have hs0beq := List.find?_some hfind0
  have hs0id : s0.id = sessionId := by simpa using hs0beq
  have hsess : db.sessions.map (archiveMap sessionId) = db.sessions := by
    have hpt : ∀ x ∈ db.sessions, archiveMap sessionId x = id x := by
      intro x hx
      unfold archiveMap
      by_cases hcid : (x.id == sessionId) = true
      · have hxeq : x = s0 :=
          session_eq_of_id_eq hnd hx hs0mem (by rw [eq_of_beq hcid, hs0id])
        subst hxeq
        rw [if_neg (by simp [harch])]
        rfl
      · rw [if_neg (by simp [hcid])]
        rfl
    rw [List.map_congr_left hpt, List.map_id]
  have harchid : archivedDB db sessionId = db := by
    unfold archivedDB
    rw [hsess]
  have hmsgs : db.messages.map (markUsedMap sessionId) = db.messages := by
    have hpt : ∀ m ∈ db.messages, markUsedMap sessionId m = id m := by
      intro m hm
      unfold markUsedMap
      by_cases hcid : (m.session_id == sessionId) = true
      · have := hused m hm (eq_of_beq hcid)
        rw [if_neg (by simp [this])]
        rfl
      · rw [if_neg (by simp [hcid])]
        rfl
    rw [List.map_congr_left hpt, List.map_id]
  have hmarkid : markedDB db sessionId = db := by
    unfold markedDB
    rw [hmsgs]
  have hdb2 : markedDB (archivedDB db sessionId) sessionId = db := by
    rw [harchid, hmarkid]
  have hhead2 : ((markedDB (archivedDB db sessionId) sessionId).sessions.filter
      (fun s => isActiveStatus s.status)).head? = some a := by
    rw [hdb2]
    exact hhead
  have hamem : a ∈ db.sessions :=
    (List.mem_filter.mp (List.mem_of_mem_head? (by rw [hhead]; rfl))).1
  have hfind2 : findSession (markedDB (archivedDB db sessionId) sessionId) a.id = some a := by
    rw [hdb2]
    cases hfa : findSession db a.id with
    | none =>
      exfalso
      have := List.find?_eq_none.mp hfa a hamem
      simp at this
    | some x =>
      have hxmem : x ∈ db.sessions := List.mem_of_find?_eq_some hfa
      have hfa0 : db.sessions.find? (fun s => s.id == a.id) = some x := hfa
      have hxbeq := List.find?_some hfa0
      have hxid : x.id = a.id := by simpa using hxbeq
      rw [session_eq_of_id_eq hnd hxmem hamem hxid]
  rw [completeLiveRound_of_found db sessionId now r s0 hfind,
    completeAfterFound_reconcile db sessionId now r a a hhead2 hfind2, hdb2, harchid]
  have huw : usedWritesOf db sessionId = [] := by
    unfold usedWritesOf
    rw [List.filter_eq_nil_iff.mpr ?_]
    · rfl
    · intro m hm
      by_cases hcid : (m.session_id == sessionId) = true
      · simp [hused m hm (eq_of_beq hcid)]
      · simp [hcid]
  rw [huw]
  rfl

/-- C2: Round-Completion is idempotent for an already-archived session.  If
the target session is ARCHIVED with all its messages used and an active
session still exists, the call creates no successor and changes neither
sessions nor messages, and an immediate second call returns the very same
store. -/
theorem complete_idempotent_for_archived (db : DB) (sessionId : Nat) (now : Int) (r1 r2 : Nat)
    (s0 : Session)
    (hnd : (db.sessions.map (·.id)).Nodup)
    (hfind : findSession db sessionId = some s0)
    (harch : s0.status = SessionStatus.ARCHIVED)
    (hused : ∀ m ∈ db.messages, m.session_id = sessionId → m.used = true)
    (hactive : ∃ a ∈ db.sessions, isActiveStatus a.status = true) :
    ∃ res res', completeLiveRound db sessionId now r1 = some res ∧
      completeLiveRound res.db sessionId now r2 = some res' ∧
      res.createdSessionId = none ∧ res'.createdSessionId = none ∧
      res.db.sessions = db.sessions ∧ res.db.messages = db.messages ∧
      res'.db = res.db := by
  obtain ⟨a0, ha0mem, ha0act⟩ := hactive
  have hne : db.sessions.filter (fun s => isActiveStatus s.status) ≠ [] := by
    intro hcon
    exact (List.filter_eq_nil_iff.mp hcon) a0 ha0mem ha0act
  obtain ⟨a, hhead⟩ : ∃ a, (db.sessions.filter
      (fun s => isActiveStatus s.status)).head? = some a := by
    cases hh : (db.sessions.filter (fun s => isActiveStatus s.status)).head? with
    | none => exact absurd (List.head?_eq_none_iff.mp hh) hne
    | some a => exact ⟨a, rfl⟩
  have h1 := complete_on_archived_reconciles db sessionId now r1 s0 a hnd hfind harch hused hhead
  have h2 := complete_on_archived_reconciles { db with global := some (reconRow db a now) }
    sessionId now r2 s0 a hnd hfind harch hused hhead
  exact ⟨_, _, h1, h2, rfl, rfl, rfl, rfl, rfl⟩

/-- Witness for C2 at a concrete input: session 0 is ARCHIVED with its one
message used and session 1 is OPEN; both completion calls reconcile to the
same store. -/
theorem complete_idempotent_for_archived_witness :
    ∃ res res', completeLiveRound dbIdem 0 1000 3 = some res ∧
      completeLiveRound res.db 0 1000 7 = some res' ∧
      res.createdSessionId = none ∧ res'.createdSessionId = none ∧
      res.db.sessions = dbIdem.sessions ∧ res.db.messages = dbIdem.messages ∧
      res'.db = res.db :=
  complete_idempotent_for_archived dbIdem 0 1000 3 7
    { id := 0, persona_name := 0, status := .ARCHIVED, start_time := 0,
      lock_time := some 100, created_at := 0 }
    (by decide) (by decide) rfl (by decide)
    ⟨{ id := 1, persona_name := 1, status := .OPEN, start_time := 50,
       lock_time := some 200, created_at := 50 }, by decide, rfl⟩

/-- C6 (amended): when Round-Completion finds no active session left, the
successor it creates is OPEN with a submission window of exactly 2 minutes
(lock time = creation time + 2 minutes), and its target subject is one of the
personas chosen uniformly at random — the choice does not exclude recently
archived subjects. -/
theorem successor_session_shape (db : DB) (sessionId : Nat) (now : Int) (randPick : Nat)
    (s0 : Session) (p : Persona) (ps : List Persona)
    (hfind : findSession db sessionId = some s0)
    (hall : ∀ s ∈ db.sessions, s.status = SessionStatus.ARCHIVED ∨
      (s.id = sessionId ∧ s.status = SessionStatus.LIVE))
    (hpersonas : db.personas = p :: ps)
    (hfresh : ∀ s ∈ db.sessions, s.id ≠ db.nextId) :
    ∃ res, completeLiveRound db sessionId now randPick = some res ∧
      res.createdSessionId = some db.nextId ∧
      ∃ ns, findSession res.db db.nextId = some ns ∧
        ns.status = SessionStatus.OPEN ∧
        ns.start_time = now ∧
        ns.lock_time = some (now + 2 * 60 * 1000) ∧
        ns.persona_name ∈ db.personas.map (·.username) := by
  have hhead : ((markedDB (archivedDB db sessionId) sessionId).sessions.filter
      (fun s => isActiveStatus s.status)).head? = none := by
    have hfil : (markedDB (archivedDB db sessionId) sessionId).sessions.filter
        (fun s => isActiveStatus s.status) = [] := by
      apply List.filter_eq_nil_iff.mpr
      intro x hx
      have hx' : x ∈ db.sessions.map (archiveMap sessionId) := hx
      obtain ⟨s1, hs1, heq⟩ := List.mem_map.mp hx'
      subst heq
      rcases hall s1 hs1 with harch | ⟨hid, hlive⟩
      · unfold archiveMap
        rw [if_neg (by simp [harch])]
        simp [isActiveStatus, harch]
      · unfold archiveMap
        rw [if_pos (by simp [hid, hlive])]
        simp [isActiveStatus]
    rw [hfil]
    rfl
  have hper : (markedDB (archivedDB db sessionId) sessionId).personas = p :: ps := hpersonas
  refine ⟨_, completeLiveRound_of_found db sessionId now randPick s0 hfind, ?_⟩
  rw [completeAfterFound_create db sessionId now randPick p ps hhead hper]
  refine ⟨rfl, ?_⟩
  -- the new session is found by its fresh id
  have hfindnew : findSession
      ((updateGlobalRoundState
        { markedDB (archivedDB db sessionId) sessionId with
          sessions := (markedDB (archivedDB db sessionId) sessionId).sessions ++
            [{ id := (markedDB (archivedDB db sessionId) sessionId).nextId
               persona_name := ((p :: ps).getD (randPick % (p :: ps).length) p).username
               status := .OPEN
               start_time := now
               lock_time := some (now + 2 * 60 * 1000)
               created_at := now }]
          nextId := (markedDB (archivedDB db sessionId) sessionId).nextId + 1 }
        (some (markedDB (archivedDB db sessionId) sessionId).nextId) .SUBMITTING
        (some (now + 2 * 60 * 1000)) none now).1) db.nextId =
      some { id := (markedDB (archivedDB db sessionId) sessionId).nextId
             persona_name := ((p :: ps).getD (randPick % (p :: ps).length) p).username
             status := .OPEN
             start_time := now
             lock_time := some (now + 2 * 60 * 1000)
             created_at := now } := by
    show ((markedDB (archivedDB db sessionId) sessionId).sessions ++
        [({ id := (markedDB (archivedDB db sessionId) sessionId).nextId
            persona_name := ((p :: ps).getD (randPick % (p :: ps).length) p).username
            status := .OPEN
            start_time := now
            lock_time := some (now + 2 * 60 * 1000)
            created_at := now } : Session)]).find?
        (fun s : Session => s.id == db.nextId) = _
    rw [List.find?_append]
    have hnone : ((markedDB (archivedDB db sessionId) sessionId).sessions.find?
        (fun s => s.id == db.nextId)) = none := by
      apply List.find?_eq_none.mpr
      intro x hx
      obtain ⟨s1, hs1, heq⟩ := List.mem_map.mp (show x ∈ db.sessions.map (archiveMap sessionId)
        from hx)
      subst heq
      have hid1 : (archiveMap sessionId s1).id = s1.id := by
        unfold archiveMap
        by_cases hc : (s1.id == sessionId && s1.status == SessionStatus.LIVE) = true
        · rw [if_pos hc]
        · rw [if_neg hc]
      simp [hid1, hfresh s1 hs1]
    rw [hnone]
    simp [List.find?, show (markedDB (archivedDB db sessionId) sessionId).nextId = db.nextId
      from rfl]
  refine ⟨_, hfindnew, rfl, rfl, rfl, ?_⟩
  show ((p :: ps).getD (randPick % (p :: ps).length) p).username ∈ db.personas.map (·.username)
  rw [hpersonas]
  apply List.mem_map.mpr
  refine ⟨(p :: ps).getD (randPick % (p :: ps).length) p, ?_, rfl⟩
  rw [List.getD_eq_getElem?_getD]
  cases hg : (p :: ps)[randPick % (p :: ps).length]? with
  | none => simp [Option.getD]
  | some x =>
    have hmem : x ∈ p :: ps := List.mem_iff_getElem?.mpr ⟨_, hg⟩
    simpa [Option.getD] using hmem

/-- Counterexample for C6 as stated: two subjects exist, the just-archived
session's subject is persona 0, yet the random pick selects persona 0 again —
the successor's subject equals the just-archived session's subject. -/
theorem successor_subject_can_repeat :
    dbTwoPersonas.personas.length = 2 ∧
    (completeLiveRound dbTwoPersonas 0 1000 0).map
        (fun r => (r.createdSessionId,
          r.db.sessions.map (fun s => (s.id, s.persona_name, s.status)))) =
      some (some 1, [(0, 0, SessionStatus.ARCHIVED), (1, 0, SessionStatus.OPEN)]) :=
  ⟨rfl, rfl⟩

/-- Witness for C6 at a concrete input. -/
theorem successor_session_shape_witness :
    ∃ res, completeLiveRound dbTwoPersonas 0 1000 1 = some res ∧
      res.createdSessionId = some dbTwoPersonas.nextId ∧
      ∃ ns, findSession res.db dbTwoPersonas.nextId = some ns ∧
        ns.status = SessionStatus.OPEN ∧
        ns.start_time = 1000 ∧
        ns.lock_time = some (1000 + 2 * 60 * 1000) ∧
        ns.persona_name ∈ dbTwoPersonas.personas.map (·.username) :=
  successor_session_shape dbTwoPersonas 0 1000 1
    { id := 0, persona_name := 0, status := .LIVE, start_time := 0,
      lock_time := some 0, created_at := 0 }
    { pid := 0, username := 0 } [{ pid := 1, username := 1 }]
    (by decide) (by decide) rfl (by decide)

/-- Witness for C10 at a concrete input: a false→true flip while the matching
global row is LIVE with index 2 of 3 advances the index to 3 and keeps the
bound. -/
theorem message_used_trigger_progress_bound_witness :
    (incrementGlobalRoundProgress false true 7
        [{ session_id := some 7, round_state := .LIVE, current_roast_index := 2,
           total_roasts := 3, submit_end_time := none, live_start_time := some 0,
           updated_at := 0 }] 5) =
      [{ session_id := some 7, round_state := .LIVE, current_roast_index := 3,
         total_roasts := 3, submit_end_time := none, live_start_time := some 0,
         updated_at := 5 }] ∧
    3 ≤ 3 := by
  constructor
  · have h := (message_used_trigger_progress_bound false true 7
      [{ session_id := some 7, round_state := .LIVE, current_roast_index := 2,
         total_roasts := 3, submit_end_time := none, live_start_time := some 0,
         updated_at := 0 }] 5).2 0 _ _ rfl (by rfl)
    have h2 := h.2.1 rfl rfl rfl rfl
    simp [incrementGlobalRoundProgress]
  · exact le_refl 3

end RoastStudio
